import Mathlib

/-!
Verification of the Monopoly-Deal game rules engine
(`src/game/gameLogic.ts` and `src/game/cards.ts` of the repository).

The TypeScript core mutates a `GameState` object in place and signals
failure by throwing; here each exported operation is a pure function
`GameState → Except (String × GameState) GameState` whose error value
carries the state as it stands at the moment of the throw (the caller of
the TypeScript code keeps using the same object after catching, so the
mutations applied before a throw remain observable).

Modelling notes, all rule-irrelevant:
* `uuid` card/player identifiers are abstracted as `Nat` (the id `0` is
  reserved for the `'hidden'` placeholder card of `getPublicGameState`);
  identifiers of distinct cards/players are assumed distinct, as uuids are.
* display-only fields (`name` of cards, `image`, `rentValues` copies,
  `socketId`, `roomCode`, `createdAt`, `updatedAt`) are dropped: the game
  logic never reads them.  Player display names are kept.
* `shuffleDeck` uses `Math.random`; operations that shuffle take the
  shuffled list (or a shuffling oracle) as an argument, constrained to be
  a permutation where a claim needs it.
* reading `state.players[state.currentPlayerIndex].id` with an
  out-of-range index would throw a `TypeError` in the source; where the
  source dereferences it directly this is modelled as an error result,
  and where it can only happen on states no operation produces we use a
  default value (noted locally).
-/

namespace MDeal

inductive PropertyColor where
  | brown | lightBlue | pink | orange | red | yellow
  | green | darkBlue | railroad | utility
deriving DecidableEq

inductive ActionType where
  | passGo | birthday | debtCollector | slyDeal | forcedDeal
  | dealBreaker | house | hotel | doubleRent | justSayNo
deriving DecidableEq

inductive CardType where
  | property | money | action | rent
deriving DecidableEq

/-- One card.  The TypeScript `Card` is a union of four record shapes that
all carry `id`, `type`, `value`; the variant-specific fields are optional
here and defaulted for the variants that lack them. -/
structure Card where
  id : Nat
  type : CardType
  value : Nat
  color : Option PropertyColor := none
  isWildcard : Bool := false
  wildcardColors : Option (List PropertyColor) := none
  action : Option ActionType := none
  colors : List PropertyColor := []
  isWildRent : Bool := false
deriving DecidableEq

structure PropertySet where
  color : PropertyColor
  cards : List Card
  hasHouse : Bool
  hasHotel : Bool
  isComplete : Bool
deriving DecidableEq

structure Player where
  id : Nat
  name : String
  hand : List Card
  properties : List PropertySet
  bank : List Card
  isConnected : Bool := true
deriving DecidableEq

inductive PendingType where
  | birthday | debtCollector | slyDeal | forcedDeal | dealBreaker | rent
deriving DecidableEq

structure PendingAction where
  type : PendingType
  fromPlayerId : Nat
  toPlayerId : Option Nat := none
  amount : Option Nat := none
  targetSet : Option PropertyColor := none
  giveCardId : Option Nat := none
  giveFromSet : Option PropertyColor := none
  card : Card
  canSayNo : Bool := true
  respondedPlayers : Option (List Nat) := none
  isDoubleRent : Option Bool := none
deriving DecidableEq

inductive GamePhase where
  | waiting | playing | finished
deriving DecidableEq

inductive TurnPhase where
  | draw | action | responding | discard | finishing
deriving DecidableEq

structure GameState where
  players : List Player
  currentPlayerIndex : Nat
  deck : List Card
  discardPile : List Card
  phase : GamePhase
  turnPhase : TurnPhase
  actionsRemaining : Int
  pendingAction : Option PendingAction
  winner : Option Nat
deriving DecidableEq

/-- The `target` record of `playCard` (`PlayCardTarget`). -/
structure PlayCardTarget where
  asBank : Bool := false
  propertySetColor : Option PropertyColor := none
  playerId : Option Nat := none
  giveCardId : Option Nat := none
  giveFromSet : Option PropertyColor := none
  useDoubleRent : Bool := false
deriving DecidableEq

/-- The `response` record of `respondToAction` (`ActionResponse`). -/
structure ActionResponse where
  accept : Bool
  useJustSayNo : Bool := false
  paymentCardIds : Option (List Nat) := none
  selectedCardId : Option Nat := none
deriving DecidableEq

/-- Result of an operation: `ok` final state, or thrown message together
with the state as mutated up to the throw. -/
abbrev GameResult := Except (String × GameState) GameState

/-- The state an external caller observes after an operation, whether it
returned normally or threw (the TypeScript caller retains the same
mutated object in both cases). -/
def outState : GameResult → GameState
  | .ok s => s
  | .error (_, s) => s

def defaultCard : Card := { id := 0, type := .money, value := 0 }

def defaultPlayer : Player :=
  { id := 0, name := "", hand := [], properties := [], bank := [] }

def defaultSet : PropertySet :=
  { color := .brown, cards := [], hasHouse := false, hasHotel := false,
    isComplete := false }

/-! ### Card catalog (`src/game/cards.ts`) -/

def PROPERTY_SET_REQUIREMENTS : PropertyColor → Nat
  | .brown => 2
  | .lightBlue => 3
  | .pink => 3
  | .orange => 3
  | .red => 3
  | .yellow => 3
  | .green => 3
  | .darkBlue => 2
  | .railroad => 4
  | .utility => 2

def RENT_VALUES : PropertyColor → List Nat
  | .brown => [1, 2]
  | .lightBlue => [1, 2, 3]
  | .pink => [1, 2, 4]
  | .orange => [1, 3, 5]
  | .red => [2, 3, 6]
  | .yellow => [2, 4, 6]
  | .green => [2, 4, 7]
  | .darkBlue => [3, 8]
  | .railroad => [1, 2, 3, 4]
  | .utility => [1, 2]

def createPropertyCard (id : Nat) (color : PropertyColor) (value : Nat)
    (isWildcard : Bool := false)
    (wildcardColors : Option (List PropertyColor) := none) : Card :=
  { id := id, type := .property, value := value, color := some color,
    isWildcard := isWildcard, wildcardColors := wildcardColors }

def createMoneyCard (id : Nat) (value : Nat) : Card :=
  { id := id, type := .money, value := value }

def createActionCard (id : Nat) (a : ActionType) (value : Nat) : Card :=
  { id := id, type := .action, value := value, action := some a }

def createRentCard (id : Nat) (colors : List PropertyColor) (value : Nat)
    (isWildRent : Bool := false) : Card :=
  { id := id, type := .rent, value := value, colors := colors,
    isWildRent := isWildRent }

def allTenColors : List PropertyColor :=
  [.brown, .lightBlue, .pink, .orange, .red, .yellow, .green, .darkBlue,
   .railroad, .utility]

/-- Card makers in the exact order `createDeck` pushes them; ids are
assigned sequentially from 1 by `createDeck` below (abstracting the uuids,
which are fresh and distinct). -/
def deckMakers : List (Nat → Card) :=
  -- Property cards (10 colors, the source's per-color blocks)
  [fun i => createPropertyCard i .brown 1,
   fun i => createPropertyCard i .brown 1,
   fun i => createPropertyCard i .lightBlue 1,
   fun i => createPropertyCard i .lightBlue 1,
   fun i => createPropertyCard i .lightBlue 1,
   fun i => createPropertyCard i .pink 2,
   fun i => createPropertyCard i .pink 2,
   fun i => createPropertyCard i .pink 2,
   fun i => createPropertyCard i .orange 2,
   fun i => createPropertyCard i .orange 2,
   fun i => createPropertyCard i .orange 2,
   fun i => createPropertyCard i .red 3,
   fun i => createPropertyCard i .red 3,
   fun i => createPropertyCard i .red 3,
   fun i => createPropertyCard i .yellow 3,
   fun i => createPropertyCard i .yellow 3,
   fun i => createPropertyCard i .yellow 3,
   fun i => createPropertyCard i .green 4,
   fun i => createPropertyCard i .green 4,
   fun i => createPropertyCard i .green 4,
   fun i => createPropertyCard i .darkBlue 4,
   fun i => createPropertyCard i .darkBlue 4,
   fun i => createPropertyCard i .railroad 2,
   fun i => createPropertyCard i .railroad 2,
   fun i => createPropertyCard i .railroad 2,
   fun i => createPropertyCard i .railroad 2,
   fun i => createPropertyCard i .utility 2,
   fun i => createPropertyCard i .utility 2,
   -- Wildcard properties (the source pushes nine)
   fun i => createPropertyCard i .brown 1 true (some [.brown, .lightBlue]),
   fun i => createPropertyCard i .pink 2 true (some [.pink, .orange]),
   fun i => createPropertyCard i .red 3 true (some [.red, .yellow]),
   fun i => createPropertyCard i .green 4 true (some [.green, .darkBlue]),
   fun i => createPropertyCard i .green 4 true (some [.green, .railroad]),
   fun i => createPropertyCard i .lightBlue 4 true (some [.lightBlue, .railroad]),
   fun i => createPropertyCard i .utility 2 true (some [.utility, .railroad]),
   fun i => createPropertyCard i .railroad 0 true (some allTenColors),
   fun i => createPropertyCard i .railroad 0 true (some allTenColors)]
  -- Money cards
  ++ List.replicate 6 (fun i => createMoneyCard i 1)
  ++ List.replicate 5 (fun i => createMoneyCard i 2)
  ++ List.replicate 3 (fun i => createMoneyCard i 3)
  ++ List.replicate 3 (fun i => createMoneyCard i 4)
  ++ List.replicate 2 (fun i => createMoneyCard i 5)
  ++ [fun i => createMoneyCard i 10]
  -- Action cards
  ++ List.replicate 2 (fun i => createActionCard i .dealBreaker 5)
  ++ List.replicate 3 (fun i => createActionCard i .justSayNo 4)
  ++ List.replicate 3 (fun i => createActionCard i .slyDeal 3)
  ++ List.replicate 4 (fun i => createActionCard i .forcedDeal 3)
  ++ List.replicate 3 (fun i => createActionCard i .debtCollector 3)
  ++ List.replicate 3 (fun i => createActionCard i .birthday 2)
  ++ List.replicate 10 (fun i => createActionCard i .passGo 1)
  ++ List.replicate 3 (fun i => createActionCard i .house 3)
  ++ List.replicate 2 (fun i => createActionCard i .hotel 4)
  ++ List.replicate 2 (fun i => createActionCard i .doubleRent 1)
  -- Rent cards
  ++ List.replicate 2 (fun i => createRentCard i [.brown, .lightBlue] 1)
  ++ List.replicate 2 (fun i => createRentCard i [.pink, .orange] 1)
  ++ List.replicate 2 (fun i => createRentCard i [.red, .yellow] 1)
  ++ List.replicate 2 (fun i => createRentCard i [.green, .darkBlue] 1)
  ++ List.replicate 2 (fun i => createRentCard i [.railroad, .utility] 1)
  ++ List.replicate 3 (fun i => createRentCard i allTenColors 3 true)

def numberFrom : Nat → List (Nat → Card) → List Card
  | _, [] => []
  | n, f :: fs => f n :: numberFrom (n + 1) fs

/-- `createDeck` of `cards.ts`: the fixed deck in source push order. -/
def createDeck : List Card := numberFrom 1 deckMakers

/-! ### State helpers

The source mutates `Player` objects found inside `state.players`; here
every mutation goes through `updatePlayer`, which rewrites the (unique)
player with the given id, and reads re-fetch the player from the current
state, reproducing the aliasing of the on-heap objects. -/

def findPlayer (s : GameState) (pid : Nat) : Option Player :=
  s.players.find? (fun p => p.id = pid)

def updatePlayer (s : GameState) (pid : Nat) (f : Player → Player) : GameState :=
  { s with players := s.players.map (fun p => if p.id = pid then f p else p) }

/-- `deck.pop()`: removes and returns the last element. -/
def popCard (deck : List Card) : Option Card × List Card :=
  match deck.getLast? with
  | none => (none, deck)
  | some c => (some c, deck.dropLast)

/-- `n` straight pops with no reshuffle (the deal loop of `startGame`);
an empty pop pushes nothing, as in the source. -/
def popN (deck : List Card) : Nat → List Card × List Card
  | 0 => ([], deck)
  | n + 1 =>
    match popCard deck with
    | (none, d) => ([], d)
    | (some c, d) =>
      let r := popN d n
      (c :: r.1, r.2)

/-- The draw loop shared by `drawCards` and `passGo`: before each pop, an
empty draw pile is replaced by the shuffled discard pile.  Returns the
final draw pile, discard pile, and the drawn cards in draw order. -/
def drawLoop (sh : List Card → List Card) :
    Nat → List Card → List Card → List Card → List Card × List Card × List Card
  | 0, deck, disc, acc => (deck, disc, acc)
  | n + 1, deck, disc, acc =>
    let deck1 := if deck.isEmpty then sh disc else deck
    let disc1 := if deck.isEmpty then [] else disc
    match popCard deck1 with
    | (none, d) => drawLoop sh n d disc1 acc
    | (some c, d) => drawLoop sh n d disc1 (acc ++ [c])

def updatePropertySetCompletion (set : PropertySet) : PropertySet :=
  { set with
    isComplete :=
      PROPERTY_SET_REQUIREMENTS set.color ≤
        (set.cards.filter (fun c => c.type = .property)).length }

/-- `playPropertyCard` acting on the owning player (the source mutates the
player object); `Except` carries the thrown message.  The source only
invokes this on property-variant cards, whose `color` is present; the
`getD` default is never reached there. -/
def playPropertyCardP (player : Player) (card : Card)
    (targetColor : Option PropertyColor) : Except String Player :=
  let color := targetColor.getD (card.color.getD .brown)
  if card.isWildcard ∧ card.wildcardColors.isSome ∧
      ¬ (card.wildcardColors.getD []).contains color then
    .error "Invalid color for wildcard"
  else
    match player.properties.findIdx? (fun ps => ps.color = color) with
    | some si =>
      let ps := player.properties.getD si defaultSet
      let ps := updatePropertySetCompletion { ps with cards := ps.cards ++ [card] }
      .ok { player with properties := player.properties.set si ps }
    | none =>
      let ps := updatePropertySetCompletion
        { color := color, cards := [card], hasHouse := false,
          hasHotel := false, isComplete := false }
      .ok { player with properties := player.properties ++ [ps] }

/-- `playPropertyCard` lifted to the game state (the player is re-read by
id, reproducing the object aliasing of the source). -/
def playPropertyCardSt (s : GameState) (pid : Nat) (card : Card)
    (targetColor : Option PropertyColor) : GameResult :=
  match playPropertyCardP ((findPlayer s pid).getD defaultPlayer) card targetColor with
  | .error m => .error (m, s)
  | .ok p => .ok (updatePlayer s pid (fun _ => p))

/-- `calculateRent`: the `|| 0` of the source turns the out-of-range
lookup at property count 0 (index `-1`) into 0. -/
def calculateRent (propertySet : PropertySet) : Nat :=
  let baseRent := RENT_VALUES propertySet.color
  let propertyCount :=
    (propertySet.cards.filter
      (fun c => c.type = .property ∨ c.isWildcard)).length
  let rent :=
    if propertyCount = 0 then 0
    else baseRent.getD (min (propertyCount - 1) (baseRent.length - 1)) 0
  rent + (if propertySet.hasHouse then 3 else 0) +
    (if propertySet.hasHotel then 4 else 0)

def completeSetCount (p : Player) : Nat :=
  (p.properties.filter (fun ps => ps.isComplete)).length

def checkWinner (s : GameState) : GameState :=
  match s.players.find? (fun p => 3 ≤ completeSetCount p) with
  | some p => { s with winner := some p.id, phase := .finished }
  | none => s

/-- The phase chosen after a pending action clears (`respondToAction`
lines 436-449 / 478-490 / 579-591): `discard` if the current player's
hand exceeds 7, else `finishing`, once the budget is exhausted; otherwise
back to `action`.  An out-of-range `currentPlayerIndex` (which no
operation leaves behind while players exist) would crash the source; the
default player stands in for it. -/
def nextPhase (s : GameState) : TurnPhase :=
  let currentPlayer := s.players.getD s.currentPlayerIndex defaultPlayer
  if s.actionsRemaining ≤ 0 then
    (if 7 < currentPlayer.hand.length then .discard else .finishing)
  else .action

def clearAndAdvance (s : GameState) : GameState :=
  let s := { s with pendingAction := none }
  { s with turnPhase := nextPhase s }

/-! ### Exported operations (`gameLogic.ts`) -/

/-- `createGameState`; the freshly shuffled deck is passed in. -/
def createGameState (deck : List Card) : GameState :=
  { players := [], currentPlayerIndex := 0, deck := deck,
    discardPile := [], phase := .waiting, turnPhase := .draw,
    actionsRemaining := 3, pendingAction := none, winner := none }

def addPlayer (s : GameState) (pid : Nat) (name : String) : GameState :=
  { s with players :=
      s.players ++
        [{ id := pid, name := name, hand := [], properties := [],
           bank := [] }] }

def removePlayer (s : GameState) (pid : Nat) : GameState :=
  if s.players.any (fun p => p.id = pid) then
    let players := s.players.eraseP (fun p => p.id = pid)
    { s with players := players,
             currentPlayerIndex :=
               if players.length ≤ s.currentPlayerIndex then 0
               else s.currentPlayerIndex }
  else s

/-- One iteration of the deal loop of `startGame`: reset the player's
containers and pop 5 cards into their hand. -/
def dealStep (acc : List Player × List Card) (p : Player) :
    List Player × List Card :=
  let r := popN acc.2 5
  (acc.1 ++ [{ p with hand := r.1, properties := [], bank := [] }], r.2)

/-- `startGame`; `newDeck` is the result of `shuffleDeck(createDeck())`. -/
def startGame (s : GameState) (newDeck : List Card) : GameResult :=
  if s.players.length < 2 then .error ("Need at least 2 players to start", s)
  else if 5 < s.players.length then .error ("Maximum 5 players allowed", s)
  else
    let dealt := s.players.foldl dealStep ([], newDeck)
    .ok { s with players := dealt.1, deck := dealt.2, discardPile := [],
                 phase := .playing, turnPhase := .draw,
                 currentPlayerIndex := 0, actionsRemaining := 3 }

def drawCards (sh : List Card → List Card) (s : GameState) (pid : Nat) :
    GameResult :=
  match findPlayer s pid with
  | none => .error ("Player not found", s)
  | some player =>
    match s.players.get? s.currentPlayerIndex with
    | none => .error ("TypeError: currentPlayer is undefined", s)
    | some currentPlayer =>
      if currentPlayer.id ≠ pid then .error ("Not your turn", s)
      else if s.turnPhase ≠ .draw then .error ("Cannot draw cards now", s)
      else
        let cardsToDraw := if player.hand.length = 0 then 5 else 2
        let r := drawLoop sh cardsToDraw s.deck s.discardPile []
        let s := { s with deck := r.1, discardPile := r.2.1 }
        let s := updatePlayer s pid (fun p => { p with hand := p.hand ++ r.2.2 })
        .ok { s with turnPhase := .action }

def endTurn (s : GameState) : GameState :=
  { s with currentPlayerIndex := (s.currentPlayerIndex + 1) % s.players.length,
           turnPhase := .draw, actionsRemaining := 3, pendingAction := none }

/-- The per-card loop of `discardCards`: splice each id out of the hand
into the discard pile, throwing if an id is not in the (current) hand. -/
def discardLoop (pid : Nat) : GameState → List Nat → GameResult
  | s, [] => .ok s
  | s, cid :: rest =>
    let p := (findPlayer s pid).getD defaultPlayer
    match p.hand.findIdx? (fun c => c.id = cid) with
    | none => .error ("Card not in hand", s)
    | some i =>
      let card := p.hand.getD i defaultCard
      let s := updatePlayer s pid
        (fun q => { q with hand := q.hand.eraseIdx i })
      discardLoop pid { s with discardPile := s.discardPile ++ [card] } rest

def discardCards (s : GameState) (pid : Nat) (cardIds : List Nat) :
    GameResult :=
  match findPlayer s pid with
  | none => .error ("Player not found", s)
  | some player =>
    match s.players.get? s.currentPlayerIndex with
    | none => .error ("TypeError: currentPlayer is undefined", s)
    | some currentPlayer =>
      if currentPlayer.id ≠ pid then .error ("Not your turn", s)
      else if s.turnPhase ≠ .discard then .error ("Not in discard phase", s)
      else if (cardIds.length : Int) ≠ (player.hand.length : Int) - 7 then
        .error ("Must discard exactly the required number of cards", s)
      else
        match discardLoop pid s cardIds with
        | .error e => .error e
        | .ok s => .ok (endTurn s)

def endTurnEarly (s : GameState) (pid : Nat) : GameResult :=
  match findPlayer s pid with
  | none => .error ("Player not found", s)
  | some player =>
    match s.players.get? s.currentPlayerIndex with
    | none => .error ("TypeError: currentPlayer is undefined", s)
    | some currentPlayer =>
      if currentPlayer.id ≠ pid then .error ("Not your turn", s)
      else if s.turnPhase ≠ .action ∧ s.turnPhase ≠ .finishing then
        .error ("Cannot end turn now", s)
      else if s.pendingAction.isSome then
        .error ("Must resolve pending action first", s)
      else if 7 < player.hand.length then .ok { s with turnPhase := .discard }
      else .ok (endTurn s)

/-- `playActionCard`: one branch per action kind.  The `doubleRent` and
`justSayNo` branches mutate (card back into the hand, budget incremented)
and then throw, exactly as the source does. -/
def playActionCard (sh : List Card → List Card) (s : GameState) (pid : Nat)
    (card : Card) (target : Option PlayCardTarget) : GameResult :=
  match card.action with
  | none => .ok s
  | some .passGo =>
    let r := drawLoop sh 2 s.deck s.discardPile []
    let s := { s with deck := r.1, discardPile := r.2.1 }
    let s := updatePlayer s pid (fun p => { p with hand := p.hand ++ r.2.2 })
    .ok { s with discardPile := s.discardPile ++ [card] }
  | some .birthday =>
    .ok { s with
          pendingAction := some
            { type := .birthday, fromPlayerId := pid, amount := some 2,
              card := card, canSayNo := true, respondedPlayers := some [] },
          turnPhase := .responding }
  | some .debtCollector =>
    match target.bind (fun t => t.playerId) with
    | none => .error ("Must select a player", s)
    | some toPid =>
      .ok { s with
            pendingAction := some
              { type := .debtCollector, fromPlayerId := pid,
                toPlayerId := some toPid, amount := some 5, card := card,
                canSayNo := true },
            turnPhase := .responding }
  | some .slyDeal =>
    match target.bind (fun t => t.playerId),
          target.bind (fun t => t.propertySetColor) with
    | some toPid, some color =>
      .ok { s with
            pendingAction := some
              { type := .slyDeal, fromPlayerId := pid,
                toPlayerId := some toPid, targetSet := some color,
                card := card, canSayNo := true },
            turnPhase := .responding }
    | _, _ => .error ("Must select a player and property set", s)
  | some .forcedDeal =>
    match target.bind (fun t => t.playerId),
          target.bind (fun t => t.propertySetColor),
          target.bind (fun t => t.giveCardId),
          target.bind (fun t => t.giveFromSet) with
    | some toPid, some color, some gid, some gset =>
      .ok { s with
            pendingAction := some
              { type := .forcedDeal, fromPlayerId := pid,
                toPlayerId := some toPid, targetSet := some color,
                giveCardId := some gid, giveFromSet := some gset,
                card := card, canSayNo := true },
            turnPhase := .responding }
    | _, _, _, _ =>
      .error ("Must select a player, their property set, and your property to exchange", s)
  | some .dealBreaker =>
    match target.bind (fun t => t.playerId),
          target.bind (fun t => t.propertySetColor) with
    | some toPid, some color =>
      let targetPlayer := findPlayer s toPid
      let targetSet := targetPlayer.bind
        (fun p => p.properties.find? (fun ps => ps.color = color))
      if (targetSet.map (fun ps => ps.isComplete)).getD false = false then
        .error ("Can only steal complete sets", s)
      else
        .ok { s with
              pendingAction := some
                { type := .dealBreaker, fromPlayerId := pid,
                  toPlayerId := some toPid, targetSet := some color,
                  card := card, canSayNo := true },
              turnPhase := .responding }
    | _, _ => .error ("Must select a player and complete set", s)
  | some .house =>
    match target.bind (fun t => t.propertySetColor) with
    | none => .error ("Must select a property set", s)
    | some color =>
      let player := (findPlayer s pid).getD defaultPlayer
      match player.properties.findIdx? (fun ps => ps.color = color) with
      | none => .error ("Set must be complete", s)
      | some si =>
        let houseSet := player.properties.getD si defaultSet
        if ¬ houseSet.isComplete then .error ("Set must be complete", s)
        else if houseSet.hasHouse then .error ("Set already has a house", s)
        else
          let newSet : PropertySet :=
            { houseSet with hasHouse := true,
                            cards := houseSet.cards ++ [card] }
          .ok (updatePlayer s pid (fun p =>
            { p with properties := p.properties.set si newSet }))
  | some .hotel =>
    match target.bind (fun t => t.propertySetColor) with
    | none => .error ("Must select a property set", s)
    | some color =>
      let player := (findPlayer s pid).getD defaultPlayer
      match player.properties.findIdx? (fun ps => ps.color = color) with
      | none => .error ("Set must be complete", s)
      | some si =>
        let hotelSet := player.properties.getD si defaultSet
        if ¬ hotelSet.isComplete then .error ("Set must be complete", s)
        else if ¬ hotelSet.hasHouse then .error ("Must have a house first", s)
        else if hotelSet.hasHotel then .error ("Set already has a hotel", s)
        else
          let newSet : PropertySet :=
            { hotelSet with hasHotel := true,
                            cards := hotelSet.cards ++ [card] }
          .ok (updatePlayer s pid (fun p =>
            { p with properties := p.properties.set si newSet }))
  | some .doubleRent =>
    let s := updatePlayer s pid (fun p => { p with hand := p.hand ++ [card] })
    let s := { s with actionsRemaining := s.actionsRemaining + 1 }
    .error ("Double Rent must be played with a Rent card", s)
  | some .justSayNo =>
    let s := updatePlayer s pid (fun p => { p with hand := p.hand ++ [card] })
    let s := { s with actionsRemaining := s.actionsRemaining + 1 }
    .error ("Just Say No can only be played in response", s)

def isDoubleRentCard (c : Card) : Prop :=
  c.type = .action ∧ c.action = some .doubleRent

instance (c : Card) : Decidable (isDoubleRentCard c) := by
  unfold isDoubleRentCard; infer_instance

def isJustSayNoCard (c : Card) : Prop :=
  c.type = .action ∧ c.action = some .justSayNo

instance (c : Card) : Decidable (isJustSayNoCard c) := by
  unfold isJustSayNoCard; infer_instance

def playRentCard (s : GameState) (pid : Nat) (card : Card)
    (target : Option PlayCardTarget) : GameResult :=
  let player := (findPlayer s pid).getD defaultPlayer
  let targetColor := target.bind (fun t => t.propertySetColor)
  let matchingSet :=
    match targetColor with
    | some tc => player.properties.find?
        (fun (ps : PropertySet) =>
          decide (ps.color = tc) && card.colors.contains ps.color)
    | none => player.properties.find?
        (fun (ps : PropertySet) => card.colors.contains ps.color)
  match matchingSet with
  | none => .error ("You need a matching property to charge rent", s)
  | some ms =>
    let rentAmount := calculateRent ms
    let useDouble :=
      (target.map (fun (t : PlayCardTarget) => t.useDoubleRent)).getD false
    let found := if useDouble then player.hand.findIdx? isDoubleRentCard
                 else none
    let s1 :=
      match found with
      | some di =>
        let dcard := player.hand.getD di defaultCard
        let s := updatePlayer s pid
          (fun p => { p with hand := p.hand.eraseIdx di })
        { s with discardPile := s.discardPile ++ [dcard],
                 actionsRemaining := s.actionsRemaining - 1 }
      | none => s
    let rentAmount := if found.isSome then rentAmount * 2 else rentAmount
    if card.isWildRent then
      match target.bind (fun t => t.playerId) with
      | none => .error ("Must select a player for wild rent", s1)
      | some toPid =>
        let s2 := { s1 with
          pendingAction := some
            { type := .rent, fromPlayerId := pid, toPlayerId := some toPid,
              amount := some rentAmount, card := card, canSayNo := true,
              isDoubleRent :=
                target.map (fun (t : PlayCardTarget) => t.useDoubleRent) },
          turnPhase := .responding }
        .ok { s2 with discardPile := s2.discardPile ++ [card] }
    else
      let s2 := { s1 with
        pendingAction := some
          { type := .rent, fromPlayerId := pid, amount := some rentAmount,
            card := card, canSayNo := true, respondedPlayers := some [],
            isDoubleRent :=
              target.map (fun (t : PlayCardTarget) => t.useDoubleRent) },
        turnPhase := .responding }
      .ok { s2 with discardPile := s2.discardPile ++ [card] }

/-- Tail of `playCard` after the branch on the card type: decrement the
budget, run the win check, and move to `discard`/`finishing` when the
budget is spent and nothing is pending (lines 142-154). -/
def finishPlay (pid : Nat) (s1 : GameState) : GameState :=
  let s2 := { s1 with actionsRemaining := s1.actionsRemaining - 1 }
  let s3 := checkWinner s2
  if s3.actionsRemaining ≤ 0 ∧ s3.pendingAction = none then
    let pNow := (findPlayer s3 pid).getD defaultPlayer
    if 7 < pNow.hand.length then { s3 with turnPhase := .discard }
    else { s3 with turnPhase := .finishing }
  else s3

/-- The card-type dispatch of `playCard` (lines 131-140), acting on the
state `s0` in which the played card has already been spliced out of the
hand. -/
def playCardBranch (sh : List Card → List Card) (s0 : GameState)
    (pid : Nat) (card : Card) (target : Option PlayCardTarget) :
    GameResult :=
  if ((target.map (fun t => t.asBank)).getD false) ∨
      card.type = .money then
    .ok (updatePlayer s0 pid (fun p => { p with bank := p.bank ++ [card] }))
  else if card.type = .property then
    playPropertyCardSt s0 pid card
      (target.bind (fun t => t.propertySetColor))
  else if card.type = .action then
    playActionCard sh s0 pid card target
  else if card.type = .rent then
    playRentCard s0 pid card target
  else .ok s0

def playCard (sh : List Card → List Card) (s : GameState) (pid : Nat)
    (cardId : Nat) (target : Option PlayCardTarget) : GameResult :=
  match findPlayer s pid with
  | none => .error ("Player not found", s)
  | some player =>
    match s.players.get? s.currentPlayerIndex with
    | none => .error ("TypeError: currentPlayer is undefined", s)
    | some currentPlayer =>
      if currentPlayer.id ≠ pid then .error ("Not your turn", s)
      else if s.turnPhase ≠ .action then .error ("Cannot play cards now", s)
      else if s.actionsRemaining ≤ 0 then .error ("No actions remaining", s)
      else
        match player.hand.findIdx? (fun c => c.id = cardId) with
        | none => .error ("Card not in hand", s)
        | some ci =>
          let card := player.hand.getD ci defaultCard
          let s0 := updatePlayer s pid
            (fun p => { p with hand := p.hand.eraseIdx ci })
          match playCardBranch sh s0 pid card target with
          | .error e => .error e
          | .ok s1 => .ok (finishPlay pid s1)

/-! ### `respondToAction` and its helpers -/

/-- `player.bank.reduce((sum, c) => sum + c.value, 0)`. -/
def bankValue (p : Player) : Nat := (p.bank.map (fun c => c.value)).sum

def allPropertyCards (p : Player) : List Card :=
  (p.properties.map (fun ps => ps.cards)).flatten

/-- `updatePropertySetCompletion(set)` applied to the set at index `si`
of the player's list (the source mutates the aliased set object). -/
def recomputeSetAt (p : Player) (si : Nat) : Player :=
  let ps := updatePropertySetCompletion (p.properties.getD si defaultSet)
  { p with properties := p.properties.set si ps }

/-- `properties.filter(s => s.cards.length > 0)`. -/
def pruneEmptySets (p : Player) : Player :=
  { p with properties := p.properties.filter (fun ps => 0 < ps.cards.length) }

/-- `totalPropertyValue`: values of every card in every set. -/
def propertiesValue (p : Player) : Nat :=
  ((allPropertyCards p).map (fun c => c.value)).sum

/-- `totalAssets`: the responder's total liquid value. -/
def totalAssetsOf (p : Player) : Nat := bankValue p + propertiesValue p

/-- `bankCard?.value || propCard?.value || 0` for one offered id. -/
def paymentCardValue (p : Player) (cid : Nat) : Nat :=
  let bankVal :=
    ((p.bank.find? (fun c => c.id = cid)).map (fun c => c.value)).getD 0
  let propVal :=
    (((allPropertyCards p).find? (fun c => c.id = cid)).map
      (fun c => c.value)).getD 0
  if bankVal ≠ 0 then bankVal else propVal

/-- `paymentValue`: the total value of the offered payment cards. -/
def paymentValueOf (p : Player) (cardIds : List Nat) : Nat :=
  cardIds.foldl (fun sum cid => sum + paymentCardValue p cid) 0

/-- First property set holding a card with the given id, together with the
card's index inside that set (the source's for-loop with `break`). -/
def findSetWithCard : List PropertySet → Nat → Option (Nat × Nat)
  | [], _ => none
  | ps :: rest, cid =>
    match ps.cards.findIdx? (fun c => c.id = cid) with
    | some pi => some (0, pi)
    | none => (findSetWithCard rest cid).map (fun q => (q.1 + 1, q.2))

/-- The payment transfer loop of `respondToAction` (lines 520-541):
for each offered id, a bank card moves to the initiator's bank; otherwise
the first set card with that id is spliced out, a property card is
re-played into the initiator's set of its own color (which can throw for
an inconsistent wildcard — the throw propagates with the state as
mutated), any other card goes to the initiator's bank, and the source
set's completeness is recomputed. -/
def transferPaymentCards (pid fid : Nat) :
    GameState → List Nat → GameResult
  | s, [] => .ok s
  | s, cid :: rest =>
    let player := (findPlayer s pid).getD defaultPlayer
    match player.bank.findIdx? (fun c => c.id = cid) with
    | some bi =>
      let card := player.bank.getD bi defaultCard
      let s := updatePlayer s pid (fun p => { p with bank := p.bank.eraseIdx bi })
      let s := updatePlayer s fid (fun p => { p with bank := p.bank ++ [card] })
      transferPaymentCards pid fid s rest
    | none =>
      match findSetWithCard player.properties cid with
      | none => transferPaymentCards pid fid s rest
      | some (si, pi) =>
        let ps := player.properties.getD si defaultSet
        let card := ps.cards.getD pi defaultCard
        let ps1 : PropertySet := { ps with cards := ps.cards.eraseIdx pi }
        let s := updatePlayer s pid
          (fun p => { p with properties := p.properties.set si ps1 })
        if card.type = .property then
          match playPropertyCardSt s fid card none with
          | .error e => .error e
          | .ok s2 =>
            transferPaymentCards pid fid
              (updatePlayer s2 pid (fun p => recomputeSetAt p si)) rest
        else
          let s := updatePlayer s fid
            (fun p => { p with bank := p.bank ++ [card] })
          transferPaymentCards pid fid
            (updatePlayer s pid (fun p => recomputeSetAt p si)) rest

/-- Shared tail of the sly-deal / forced-deal effects: recompute the
completeness of the set at index `si` of player `pid` and prune that
player's empty sets. -/
def recomputePruneAt (s : GameState) (pid si : Nat) : GameState :=
  updatePlayer (updatePlayer s pid (fun p => recomputeSetAt p si)) pid
    pruneEmptySets

/-- `executeSlyDeal`: `toPid` surrenders one card of the target set
(chosen by `targetCardId`, defaulting to the last) to `fromPid`. -/
def executeSlyDeal (s : GameState) (fromPid toPid : Nat)
    (targetColor : Option PropertyColor) (targetCardId : Option Nat) :
    GameResult :=
  let toPlayer := (findPlayer s toPid).getD defaultPlayer
  match toPlayer.properties.findIdx? (fun ps => some ps.color = targetColor) with
  | none => .ok s
  | some si =>
    let targetSet := toPlayer.properties.getD si defaultSet
    if targetSet.isComplete then .ok s
    else
      let cardIndex :=
        match targetCardId.bind
            (fun tid => targetSet.cards.findIdx? (fun c => c.id = tid)) with
        | some i => i
        | none => targetSet.cards.length - 1
      let card? := targetSet.cards.get? cardIndex
      let ts1 : PropertySet :=
        { targetSet with cards := targetSet.cards.eraseIdx cardIndex }
      let s := updatePlayer s toPid
        (fun p => { p with properties := p.properties.set si ts1 })
      match card? with
      | some c =>
        if c.type = .property then
          match playPropertyCardSt s fromPid c targetColor with
          | .error e => .error e
          | .ok s2 => .ok (recomputePruneAt s2 toPid si)
        else .ok (recomputePruneAt s toPid si)
      | none => .ok (recomputePruneAt s toPid si)

/-- Tail of `executeForcedDeal`: move the taken card to the initiator's
set of the target color (a non-property card silently vanishes, as in the
source), then recompute the target set and prune the responder's empty
sets. -/
def forcedDealTaken (s : GameState) (fromPid toPid si : Nat)
    (targetColor : Option PropertyColor) (takenCard? : Option Card) :
    GameResult :=
  match takenCard? with
  | some c =>
    if c.type = .property then
      match playPropertyCardSt s fromPid c targetColor with
      | .error e => .error e
      | .ok s2 => .ok (recomputePruneAt s2 toPid si)
    else .ok (recomputePruneAt s toPid si)
  | none => .ok (recomputePruneAt s toPid si)

/-- `executeForcedDeal`: like sly deal, but the initiator also gives one
of their own cards back to the responder. -/
def executeForcedDeal (s : GameState) (fromPid toPid : Nat)
    (targetColor : Option PropertyColor) (targetCardId : Option Nat)
    (giveCardId : Option Nat) (giveFromSet : Option PropertyColor) :
    GameResult :=
  let toPlayer := (findPlayer s toPid).getD defaultPlayer
  match toPlayer.properties.findIdx? (fun ps => some ps.color = targetColor) with
  | none => .ok s
  | some si =>
    let targetSet := toPlayer.properties.getD si defaultSet
    if targetSet.isComplete then .ok s
    else
      let targetCardIndex :=
        match targetCardId.bind
            (fun tid => targetSet.cards.findIdx? (fun c => c.id = tid)) with
        | some i => i
        | none => targetSet.cards.length - 1
      let takenCard? := targetSet.cards.get? targetCardIndex
      let ts1 : PropertySet :=
        { targetSet with cards := targetSet.cards.eraseIdx targetCardIndex }
      let s := updatePlayer s toPid
        (fun p => { p with properties := p.properties.set si ts1 })
      match giveCardId, giveFromSet with
      | some gid, some gcolor =>
        let fromPlayer := (findPlayer s fromPid).getD defaultPlayer
        match fromPlayer.properties.findIdx? (fun ps => ps.color = gcolor) with
        | none => forcedDealTaken s fromPid toPid si targetColor takenCard?
        | some gi =>
          let giveSet := fromPlayer.properties.getD gi defaultSet
          if giveSet.isComplete then
            forcedDealTaken s fromPid toPid si targetColor takenCard?
          else
            match giveSet.cards.findIdx? (fun c => c.id = gid) with
            | none => forcedDealTaken s fromPid toPid si targetColor takenCard?
            | some gci =>
              let givenCard := giveSet.cards.getD gci defaultCard
              let gs1 : PropertySet :=
                { giveSet with cards := giveSet.cards.eraseIdx gci }
              let s := updatePlayer s fromPid
                (fun p => { p with properties := p.properties.set gi gs1 })
              if givenCard.type = .property then
                match playPropertyCardSt s toPid givenCard giveFromSet with
                | .error e => .error e
                | .ok s2 =>
                  forcedDealTaken (recomputePruneAt s2 fromPid gi) fromPid
                    toPid si targetColor takenCard?
              else
                forcedDealTaken (recomputePruneAt s fromPid gi) fromPid toPid
                  si targetColor takenCard?
      | _, _ => forcedDealTaken s fromPid toPid si targetColor takenCard?

/-- `executeDealBreaker`: the whole target set moves, modifiers included. -/
def executeDealBreaker (s : GameState) (fromPid toPid : Nat)
    (targetColor : Option PropertyColor) : GameState :=
  let toPlayer := (findPlayer s toPid).getD defaultPlayer
  match toPlayer.properties.findIdx? (fun ps => some ps.color = targetColor) with
  | none => s
  | some si =>
    let targetSet := toPlayer.properties.getD si defaultSet
    let s := updatePlayer s toPid
      (fun p => { p with properties := p.properties.eraseIdx si })
    updatePlayer s fromPid
      (fun p => { p with properties := p.properties ++ [targetSet] })

/-- The payment block of `respondToAction` (lines 494-545): nothing
happens unless the response accepts and the pending amount is truthy;
the payment is then validated against `min(requiredAmount, totalAssets)`
(a throw leaves the state untouched) and the offered cards are
transferred, after which the responder's empty sets are pruned.
`player` is the responder as read at entry (nothing has mutated yet on
this path). -/
def settlePayment (pid : Nat) (pa : PendingAction)
    (response : ActionResponse) (player : Player) (s : GameState) :
    GameResult :=
  if response.accept && (pa.amount.getD 0 ≠ 0 : Bool) then
    let requiredAmount := pa.amount.getD 0
    let totalAssets := totalAssetsOf player
    let paymentCardIds := response.paymentCardIds.getD []
    let paymentValue := paymentValueOf player paymentCardIds
    if 0 < totalAssets ∧ paymentValue < min requiredAmount totalAssets then
      .error ("You must pay at least the minimum payment", s)
    else
      match transferPaymentCards pid pa.fromPlayerId s paymentCardIds with
      | .error e => .error e
      | .ok s2 => .ok (updatePlayer s2 pid pruneEmptySets)
  else .ok s

/-- The effect switch of `respondToAction` (lines 547-562), run only for
accepted single-target actions. -/
def runPendingEffect (pid : Nat) (pa : PendingAction)
    (response : ActionResponse) (isMultiPlayerAction : Bool)
    (s2 : GameState) : GameResult :=
  if response.accept && !isMultiPlayerAction then
    match pa.type with
    | .slyDeal =>
      executeSlyDeal s2 pa.fromPlayerId pid pa.targetSet
        response.selectedCardId
    | .forcedDeal =>
      executeForcedDeal s2 pa.fromPlayerId pid pa.targetSet
        response.selectedCardId pa.giveCardId pa.giveFromSet
    | .dealBreaker =>
      .ok (executeDealBreaker s2 pa.fromPlayerId pid pa.targetSet)
    | _ => .ok s2
  else .ok s2

/-- The role-swapped pending action created when a refusal is countered
(lines 463-475): the refuser becomes `fromPlayerId` and the original
initiator the addressee; everything else is kept. -/
def counterPending (pa : PendingAction) (pid : Nat) : PendingAction :=
  { pa with fromPlayerId := pid, toPlayerId := some pa.fromPlayerId,
            canSayNo := true }

/-- `respondToAction`: refusal handling, payment settlement, effect
execution, broadcast bookkeeping, then clearing and phase advance.  No
win check happens here (the source never calls `checkWinner` in this
function). -/
def respondToAction (s : GameState) (pid : Nat) (response : ActionResponse) :
    GameResult :=
  match s.pendingAction with
  | none => .error ("No pending action", s)
  | some pa =>
    match findPlayer s pid with
    | none => .error ("Player not found", s)
    | some player =>
      match findPlayer s pa.fromPlayerId with
      | none => .error ("Action initiator not found", s)
      | some _fromPlayer =>
        let isMultiPlayerAction := pa.respondedPlayers.isSome
        if isMultiPlayerAction && (pa.respondedPlayers.getD []).contains pid then
          .error ("You have already responded to this action", s)
        else if response.useJustSayNo then
          match player.hand.findIdx? isJustSayNoCard with
          | none => .error ("No Just Say No card", s)
          | some ji =>
            let justSayNo := player.hand.getD ji defaultCard
            let s1 := updatePlayer s pid
              (fun p => { p with hand := p.hand.eraseIdx ji })
            let s1 := { s1 with discardPile := s1.discardPile ++ [justSayNo] }
            if isMultiPlayerAction then
              let responded := pa.respondedPlayers.getD [] ++ [pid]
              let pa1 : PendingAction :=
                { pa with respondedPlayers := some responded }
              let s2 := { s1 with pendingAction := some pa1 }
              let otherPlayers :=
                s2.players.filter (fun p => p.id ≠ pa.fromPlayerId)
              if otherPlayers.all (fun p => responded.contains p.id) then
                .ok (clearAndAdvance s2)
              else .ok s2
            else
              let fromNow := (findPlayer s1 pa.fromPlayerId).getD defaultPlayer
              if fromNow.hand.any isJustSayNoCard then
                .ok { s1 with pendingAction := some (counterPending pa pid) }
              else .ok (clearAndAdvance s1)
        else
          match settlePayment pid pa response player s with
          | .error e => .error e
          | .ok s2 =>
            match runPendingEffect pid pa response isMultiPlayerAction s2 with
            | .error e => .error e
            | .ok s3 =>
              if isMultiPlayerAction then
                let responded := pa.respondedPlayers.getD [] ++ [pid]
                let pa1 : PendingAction :=
                  { pa with respondedPlayers := some responded }
                let s4 := { s3 with pendingAction := some pa1 }
                let otherPlayers :=
                  s4.players.filter (fun p => p.id ≠ pa.fromPlayerId)
                if otherPlayers.all (fun p => responded.contains p.id) then
                  .ok (clearAndAdvance s4)
                else .ok s4
              else .ok (clearAndAdvance s3)

def emptySetOf (color : PropertyColor) : PropertySet :=
  { color := color, cards := [], hasHouse := false, hasHotel := false,
    isComplete := false }

def rearrangeProperty (s : GameState) (pid : Nat) (cardId : Nat)
    (fromColor toColor : PropertyColor) : GameResult :=
  match findPlayer s pid with
  | none => .error ("Player not found", s)
  | some player =>
    match s.players.get? s.currentPlayerIndex with
    | none => .error ("TypeError: currentPlayer is undefined", s)
    | some currentPlayer =>
      if currentPlayer.id ≠ pid then .error ("Not your turn", s)
      else if s.turnPhase ≠ .action ∧ s.turnPhase ≠ .finishing then
        .error ("Cannot rearrange now", s)
      else
        match player.properties.findIdx? (fun ps => ps.color = fromColor) with
        | none => .error ("Source property set not found", s)
        | some fi =>
          let fromSet := player.properties.getD fi defaultSet
          match fromSet.cards.findIdx? (fun c => c.id = cardId) with
          | none => .error ("Card not found in source set", s)
          | some ci =>
            let card := fromSet.cards.getD ci defaultCard
            if ¬ card.isWildcard then
              .error ("Only wildcard properties can be rearranged", s)
            else if card.wildcardColors.isSome ∧
                ¬ (card.wildcardColors.getD []).contains toColor then
              .error ("This wildcard cannot be placed on that color", s)
            else
              let fromSet1 := updatePropertySetCompletion
                { fromSet with cards := fromSet.cards.eraseIdx ci }
              let props1 := player.properties.set fi fromSet1
              let ti :=
                match props1.findIdx? (fun ps => ps.color = toColor) with
                | some i => i
                | none => props1.length
              let props2 :=
                if props1.any (fun ps => ps.color = toColor) then props1
                else props1 ++ [emptySetOf toColor]
              let toSet := props2.getD ti defaultSet
              let toSet1 := updatePropertySetCompletion
                { toSet with cards := toSet.cards ++ [card] }
              let props3 :=
                (props2.set ti toSet1).filter (fun ps => 0 < ps.cards.length)
              let s1 := updatePlayer s pid
                (fun p => { p with properties := props3 })
              .ok (checkWinner s1)

/-- The `'hidden'` placeholder card (id 0 models the `'hidden'` id). -/
def hiddenCard : Card := { id := 0, type := .money, value := 0 }

def getPublicGameState (s : GameState) (forPlayerId : Option Nat) : GameState :=
  { s with players :=
      s.players.map (fun p =>
        { p with hand :=
            if some p.id = forPlayerId then p.hand
            else p.hand.map (fun _ => hiddenCard) }) }

/-! ## Lemmas about the deal loop -/

theorem popN_length (n : Nat) :
    ∀ deck : List Card,
      (popN deck n).1.length = min n deck.length ∧
      (popN deck n).2.length = deck.length - n := by
  induction n with
  | zero => intro deck; simp [popN]
  | succ n ih =>
    intro deck
    rcases deck.eq_nil_or_concat with rfl | ⟨ys, y, rfl⟩
    · simp [popN, popCard]
    · have hlast : (ys ++ [y]).getLast? = some y := by
        simp [List.getLast?_concat]
      have hdrop : (ys ++ [y]).dropLast = ys := by
        simp
      have := ih ys
      simp only [popN, popCard, hlast, hdrop]
      constructor
      · simp [this.1, Nat.succ_min_succ]
      · simp [this.2]

theorem dealFold_spec (players : List Player) :
    ∀ acc : List Player × List Card,
      5 * players.length ≤ acc.2.length →
      (players.foldl dealStep acc).2.length =
          acc.2.length - 5 * players.length ∧
      (players.foldl dealStep acc).1.length =
          acc.1.length + players.length ∧
      (∀ p ∈ (players.foldl dealStep acc).1,
        p ∈ acc.1 ∨ p.hand.length = 5) := by
  induction players with
  | nil =>
    intro acc _
    refine ⟨by simp, by simp, fun p hp => Or.inl (by simpa using hp)⟩
  | cons q rest ih =>
    intro acc hlen
    have h5 : 5 ≤ acc.2.length := by
      simp [List.length_cons] at hlen; omega
    have hpop := popN_length 5 acc.2
    have hstep2 : (dealStep acc q).2.length = acc.2.length - 5 := hpop.2
    have hstep1 : (dealStep acc q).1 =
        acc.1 ++ [{ q with hand := (popN acc.2 5).1,
                           properties := [], bank := [] }] := rfl
    have hrest : 5 * rest.length ≤ (dealStep acc q).2.length := by
      rw [hstep2]; simp [List.length_cons] at hlen; omega
    have := ih (dealStep acc q) hrest
    refine ⟨?_, ?_, ?_⟩
    · rw [List.foldl_cons, this.1, hstep2]
      simp [List.length_cons]; omega
    · rw [List.foldl_cons, this.2.1, hstep1]
      simp [List.length_cons]; omega
    · intro p hp
      rw [List.foldl_cons] at hp
      rcases this.2.2 p hp with hmem | h5'
      · rw [hstep1] at hmem
        rcases List.mem_append.mp hmem with h | h
        · exact Or.inl h
        · right
          have hq : p = { q with hand := (popN acc.2 5).1,
                                 properties := [], bank := [] } := by
            simpa using h
          rw [hq]
          show (popN acc.2 5).1.length = 5
          rw [hpop.1]; omega
      · exact Or.inr h5'

/-! ## C4: deck composition and the opening deal -/

/-- C4 counterexample: `createDeck` does not produce 110 cards (it
produces 105: the source pushes only 9 property wildcards — despite its
own `(11 total)` comment — and 35 action cards). -/
theorem claim_C4_counterexample : createDeck.length ≠ 110 := by decide

/-- C4 (amended): `createDeck` returns exactly 105 cards — 28
non-wildcard properties across 10 colors with per-color counts
2/3/3/3/3/3/3/2/4/2, 9 property wildcards of which two are fully
unrestricted, 20 money cards in denominations 1/2/3/4/5/10, 35 action
cards across 10 kinds (2 deal-breaker, 3 just-say-no, 3 sly-deal,
4 forced-deal, 3 debt-collector, 3 birthday, 10 pass-go, 3 house,
2 hotel, 2 double-rent), and 13 rent cards (5 fixed two-color pairs
twice each plus 3 fully-wild rents); consequently `startGame` with 3
participants deals 15 cards, leaving 90 in the draw pile and 5 cards in
each hand. -/
theorem claim_C4_amended :
    (createDeck.length = 105 ∧
      (createDeck.filter
        (fun c => c.type = .property ∧ c.isWildcard = false)).length = 28 ∧
      (∀ col ∈ allTenColors,
        (createDeck.filter (fun c =>
          c.type = .property ∧ c.isWildcard = false ∧
            c.color = some col)).length = PROPERTY_SET_REQUIREMENTS col) ∧
      (createDeck.filter (fun c => c.isWildcard = true)).length = 9 ∧
      (createDeck.filter (fun c =>
        c.isWildcard = true ∧ c.wildcardColors = some allTenColors)).length = 2 ∧
      (createDeck.filter (fun c => c.type = .money)).length = 20 ∧
      (∀ v ∈ [(1, 6), (2, 5), (3, 3), (4, 3), (5, 2), (10, 1)],
        (createDeck.filter (fun c =>
          c.type = .money ∧ c.value = v.1)).length = v.2) ∧
      (createDeck.filter (fun c => c.type = .action)).length = 35 ∧
      (∀ a ∈ [(ActionType.dealBreaker, 2), (ActionType.justSayNo, 3),
              (ActionType.slyDeal, 3), (ActionType.forcedDeal, 4),
              (ActionType.debtCollector, 3), (ActionType.birthday, 3),
              (ActionType.passGo, 10), (ActionType.house, 3),
              (ActionType.hotel, 2), (ActionType.doubleRent, 2)],
        (createDeck.filter (fun c =>
          c.type = .action ∧ c.action = some a.1)).length = a.2) ∧
      (createDeck.filter (fun c => c.type = .rent)).length = 13 ∧
      (createDeck.filter (fun c =>
        c.type = .rent ∧ c.isWildRent = true)).length = 3 ∧
      (∀ pr ∈ [[PropertyColor.brown, PropertyColor.lightBlue],
               [PropertyColor.pink, PropertyColor.orange],
               [PropertyColor.red, PropertyColor.yellow],
               [PropertyColor.green, PropertyColor.darkBlue],
               [PropertyColor.railroad, PropertyColor.utility]],
        (createDeck.filter (fun c =>
          c.type = .rent ∧ c.isWildRent = false ∧
            c.colors = pr)).length = 2)) ∧
    (∀ (s : GameState) (newDeck : List Card),
      s.players.length = 3 → newDeck.Perm createDeck →
      ∃ s', startGame s newDeck = .ok s' ∧
        s'.deck.length = 90 ∧ s'.players.length = 3 ∧
        ∀ p ∈ s'.players, p.hand.length = 5) := by
  refine ⟨by decide, ?_⟩
  intro s newDeck h3 hperm
  have hlen : newDeck.length = 105 := by
    have h := hperm.length_eq
    simpa using h
  have hspec := dealFold_spec s.players ([], newDeck)
    (by rw [h3, hlen]; omega)
  refine ⟨{ s with players := (s.players.foldl dealStep ([], newDeck)).1,
                   deck := (s.players.foldl dealStep ([], newDeck)).2,
                   discardPile := [], phase := .playing, turnPhase := .draw,
                   currentPlayerIndex := 0, actionsRemaining := 3 },
          ?_, ?_, ?_, ?_⟩
  · simp [startGame, h3]
  · simpa [hlen, h3] using hspec.1
  · simpa [h3] using hspec.2.1
  · intro p hp
    rcases hspec.2.2 p hp with h | h
    · simp at h
    · exact h

def witnessStartState : GameState :=
  { players :=
      [{ id := 1, name := "a", hand := [], properties := [], bank := [] },
       { id := 2, name := "b", hand := [], properties := [], bank := [] },
       { id := 3, name := "c", hand := [], properties := [], bank := [] }],
    currentPlayerIndex := 0, deck := [], discardPile := [],
    phase := .waiting, turnPhase := .draw, actionsRemaining := 3,
    pendingAction := none, winner := none }

/-- C4 witness: the deal conclusion instantiated at a concrete 3-player
lobby with the unshuffled deck. -/
theorem claim_C4_witness :
    ∃ s', startGame witnessStartState createDeck = .ok s' ∧
      s'.deck.length = 90 ∧ s'.players.length = 3 ∧
      ∀ p ∈ s'.players, p.hand.length = 5 :=
  claim_C4_amended.2 witnessStartState createDeck rfl (List.Perm.refl _)

/-! ## C6: atomicity of failing operations -/

def isOkResult : GameResult → Bool
  | .ok _ => true
  | .error _ => false

instance : DecidableEq GameResult := fun x y =>
  match x, y with
  | .error a, .error b => decidable_of_iff (a = b) (by simp)
  | .ok a, .ok b => decidable_of_iff (a = b) (by simp)
  | .error _, .ok _ => isFalse (by simp)
  | .ok _, .error _ => isFalse (by simp)

def c6Player : Player :=
  { id := 1, name := "a",
    hand := [createActionCard 60 .doubleRent 1, createMoneyCard 40 3],
    properties := [], bank := [] }

/-- A playing-phase state whose current player holds a standalone
double-rent card and a money card, 3 actions remaining. -/
def c6State : GameState :=
  { players := [c6Player], currentPlayerIndex := 0, deck := [],
    discardPile := [], phase := .playing, turnPhase := .action,
    actionsRemaining := 3, pendingAction := none, winner := none }

/-- The state the source leaves behind after the throw: the double-rent
card has moved to the end of the hand and the action budget has been
incremented (the `actionsRemaining++` "refund" is never matched by the
skipped decrement of `playCard`). -/
def c6After : GameState :=
  { c6State with
    actionsRemaining := 4,
    players := [{ c6Player with
      hand := [createMoneyCard 40 3, createActionCard 60 .doubleRent 1] }] }

/-- C6: playing a standalone double-rent card throws, but the state
after the throw is NOT the state before the call — the hand is reordered
and `actionsRemaining` has grown from 3 to 4, so failing operations are
not atomic. -/
theorem claim_C6_theorem :
    playCard (fun l => l) c6State 1 60 none =
      .error ("Double Rent must be played with a Rent card", c6After) ∧
    c6After ≠ c6State ∧
    c6After.actionsRemaining = c6State.actionsRemaining + 1 := by
  refine ⟨?_, ?_, ?_⟩ <;> decide

/-! ## C5: when win detection runs -/

def c5Winner : Player :=
  { id := 1, name := "a", hand := [],
    properties :=
      [{ color := .darkBlue,
         cards := [createPropertyCard 21 .darkBlue 4,
                   createPropertyCard 22 .darkBlue 4],
         hasHouse := false, hasHotel := false, isComplete := true },
       { color := .utility,
         cards := [createPropertyCard 27 .utility 2,
                   createPropertyCard 28 .utility 2],
         hasHouse := false, hasHotel := false, isComplete := true }],
    bank := [] }

def c5Victim : Player :=
  { id := 2, name := "b", hand := [],
    properties :=
      [{ color := .brown,
         cards := [createPropertyCard 1 .brown 1,
                   createPropertyCard 2 .brown 1],
         hasHouse := false, hasHotel := false, isComplete := true }],
    bank := [] }

/-- A pending deal-breaker aimed at the victim's complete brown set; the
initiator already owns two complete sets. -/
def c5State : GameState :=
  { players := [c5Winner, c5Victim], currentPlayerIndex := 0, deck := [],
    discardPile := [], phase := .playing, turnPhase := .responding,
    actionsRemaining := 2,
    pendingAction := some
      { type := .dealBreaker, fromPlayerId := 1, toPlayerId := some 2,
        targetSet := some .brown,
        card := createActionCard 58 .dealBreaker 5 },
    winner := none }

/-- C5 counterexample: settling the deal-breaker through
`respondToAction` gives the initiator a third complete set, yet the match
phase stays `playing` and no winner is recorded — `respondToAction`
performs no win check. -/
theorem claim_C5_counterexample :
    isOkResult (respondToAction c5State 2 { accept := true }) = true ∧
    (outState (respondToAction c5State 2 { accept := true })).players.map
        completeSetCount = [3, 0] ∧
    (outState (respondToAction c5State 2 { accept := true })).phase
        = .playing ∧
    (outState (respondToAction c5State 2 { accept := true })).winner
        = none := by
  refine ⟨?_, ?_, ?_, ?_⟩ <;> decide

theorem checkWinner_players (s : GameState) :
    (checkWinner s).players = s.players := by
  unfold checkWinner; split <;> rfl

theorem checkWinner_finds (s : GameState)
    (h : ∃ p ∈ s.players, 3 ≤ completeSetCount p) :
    (checkWinner s).phase = .finished ∧
    (checkWinner s).winner.isSome = true := by
  unfold checkWinner
  rcases h with ⟨p, hp, h3⟩
  have hsome : (s.players.find? (fun q => 3 ≤ completeSetCount q)).isSome := by
    rw [List.find?_isSome]
    exact ⟨p, hp, by simpa using h3⟩
  split
  · simp
  · next heq => rw [heq] at hsome; simp at hsome

theorem finishPlay_players (pid : Nat) (s1 : GameState) :
    (finishPlay pid s1).players = s1.players := by
  simp only [finishPlay]
  split
  · split <;> simp [checkWinner_players]
  · simp [checkWinner_players]

theorem finishPlay_win {pid : Nat} {s1 : GameState}
    (h : ∃ p ∈ (finishPlay pid s1).players, 3 ≤ completeSetCount p) :
    (finishPlay pid s1).phase = .finished ∧
    (finishPlay pid s1).winner.isSome = true := by
  rw [finishPlay_players, ← checkWinner_players
    { s1 with actionsRemaining := s1.actionsRemaining - 1 }] at h
  rw [checkWinner_players] at h
  have := checkWinner_finds
    { s1 with actionsRemaining := s1.actionsRemaining - 1 } h
  simp only [finishPlay]
  split
  · split <;> simpa using this
  · simpa using this

theorem playCard_ok_finishPlay {sh : List Card → List Card}
    {s : GameState} {pid cid : Nat} {t : Option PlayCardTarget}
    {s' : GameState} (h : playCard sh s pid cid t = .ok s') :
    ∃ s1, s' = finishPlay pid s1 := by
  unfold playCard at h
  dsimp only at h
  repeat' split at h
  all_goals first
    | exact ⟨_, (Except.ok.inj h).symm⟩
    | exact absurd h (by simp)

theorem rearrangeProperty_ok_checkWinner {s : GameState} {pid cid : Nat}
    {c1 c2 : PropertyColor} {s' : GameState}
    (h : rearrangeProperty s pid cid c1 c2 = .ok s') :
    ∃ s1, s' = checkWinner s1 := by
  unfold rearrangeProperty at h
  dsimp only at h
  repeat' split at h
  all_goals first
    | exact ⟨_, (Except.ok.inj h).symm⟩
    | exact absurd h (by simp)

/-- C5 (amended): win detection runs inside `playCard` and
`rearrangeProperty` only — there any participant reaching 3 complete
sets immediately finishes the match with a recorded winner — while
`respondToAction` (payment settlement and sly-deal / forced-deal /
deal-breaker transfers) performs no win check, as the counterexample
shows. -/
theorem claim_C5_amended :
    (∀ (sh : List Card → List Card) (s : GameState) (pid cid : Nat)
        (t : Option PlayCardTarget) (s' : GameState),
      playCard sh s pid cid t = .ok s' →
      (∃ p ∈ s'.players, 3 ≤ completeSetCount p) →
      s'.phase = .finished ∧ s'.winner.isSome = true) ∧
    (∀ (s : GameState) (pid cid : Nat) (c1 c2 : PropertyColor)
        (s' : GameState),
      rearrangeProperty s pid cid c1 c2 = .ok s' →
      (∃ p ∈ s'.players, 3 ≤ completeSetCount p) →
      s'.phase = .finished ∧ s'.winner.isSome = true) := by
  constructor
  · intro sh s pid cid t s' h hwin
    obtain ⟨s1, rfl⟩ := playCard_ok_finishPlay h
    exact finishPlay_win hwin
  · intro s pid cid c1 c2 s' h hwin
    obtain ⟨s1, rfl⟩ := rearrangeProperty_ok_checkWinner h
    have hp : ∃ p ∈ s1.players, 3 ≤ completeSetCount p := by
      rwa [checkWinner_players] at hwin
    exact checkWinner_finds s1 hp

/-! ## C7: when `currentPlayerIndex` changes -/

/-- The current-player index an external caller observes after an
operation, whether it returned or threw. -/
def idxOf (r : GameResult) : Nat := (outState r).currentPlayerIndex

theorem updatePlayer_idx (s : GameState) (pid : Nat) (f : Player → Player) :
    (updatePlayer s pid f).currentPlayerIndex = s.currentPlayerIndex := rfl

theorem updatePlayer_players_length (s : GameState) (pid : Nat)
    (f : Player → Player) :
    (updatePlayer s pid f).players.length = s.players.length := by
  simp [updatePlayer]

theorem checkWinner_idx (s : GameState) :
    (checkWinner s).currentPlayerIndex = s.currentPlayerIndex := by
  unfold checkWinner; split <;> rfl

theorem playPropertyCardSt_idx (s : GameState) (pid : Nat) (c : Card)
    (tc : Option PropertyColor) :
    idxOf (playPropertyCardSt s pid c tc) = s.currentPlayerIndex := by
  unfold playPropertyCardSt
  split <;> rfl

theorem playActionCard_idx (sh : List Card → List Card) (s : GameState)
    (pid : Nat) (card : Card) (t : Option PlayCardTarget) :
    idxOf (playActionCard sh s pid card t) = s.currentPlayerIndex := by
  unfold playActionCard
  dsimp only
  repeat' split
  all_goals rfl

theorem playRentCard_idx (s : GameState) (pid : Nat) (card : Card)
    (t : Option PlayCardTarget) :
    idxOf (playRentCard s pid card t) = s.currentPlayerIndex := by
  unfold playRentCard
  dsimp only
  repeat' split
  all_goals rfl

theorem finishPlay_idx (pid : Nat) (s1 : GameState) :
    (finishPlay pid s1).currentPlayerIndex = s1.currentPlayerIndex := by
  simp only [finishPlay]
  split
  · split <;> simp [checkWinner_idx]
  · simp [checkWinner_idx]

theorem playCardBranch_idx (sh : List Card → List Card) (s0 : GameState)
    (pid : Nat) (card : Card) (t : Option PlayCardTarget) :
    idxOf (playCardBranch sh s0 pid card t) = s0.currentPlayerIndex := by
  unfold playCardBranch
  repeat' split
  all_goals first
    | rfl
    | apply playPropertyCardSt_idx
    | apply playActionCard_idx
    | apply playRentCard_idx

theorem playCard_idx (sh : List Card → List Card) (s : GameState)
    (pid cid : Nat) (t : Option PlayCardTarget) :
    idxOf (playCard sh s pid cid t) = s.currentPlayerIndex := by
  unfold playCard
  dsimp only
  repeat' split
  any_goals rfl
  · next e heq =>
      have h := congrArg idxOf heq
      rw [playCardBranch_idx, updatePlayer_idx] at h
      exact h.symm
  · next s1 heq =>
      have h := congrArg idxOf heq
      rw [playCardBranch_idx, updatePlayer_idx] at h
      show (finishPlay pid s1).currentPlayerIndex = s.currentPlayerIndex
      rw [finishPlay_idx]
      exact h.symm

theorem transferPaymentCards_idx (pid fid : Nat) :
    ∀ (ids : List Nat) (s : GameState),
      idxOf (transferPaymentCards pid fid s ids) = s.currentPlayerIndex := by
  intro ids
  induction ids with
  | nil => intro s; rfl
  | cons cid rest ih =>
    intro s
    unfold transferPaymentCards
    dsimp only
    repeat' split
    all_goals first
      | (rename_i sx heq
         rw [ih, updatePlayer_idx]
         have h := congrArg idxOf heq
         rw [playPropertyCardSt_idx] at h
         exact h.symm)
      | (rename_i heq
         have h := congrArg idxOf heq
         rw [playPropertyCardSt_idx] at h
         exact h.symm)
      | (rw [ih]; try rfl)

theorem recomputePruneAt_idx (s : GameState) (pid si : Nat) :
    (recomputePruneAt s pid si).currentPlayerIndex
      = s.currentPlayerIndex := rfl

theorem forcedDealTaken_idx (s : GameState) (fromPid toPid si : Nat)
    (tc : Option PropertyColor) (tk : Option Card) :
    idxOf (forcedDealTaken s fromPid toPid si tc tk)
      = s.currentPlayerIndex := by
  unfold forcedDealTaken
  repeat' split
  any_goals rfl
  all_goals
    (rename_i heq
     have h := congrArg idxOf heq
     rw [playPropertyCardSt_idx] at h
     first
       | exact h.symm
       | (show (recomputePruneAt _ _ _).currentPlayerIndex = _
          rw [recomputePruneAt_idx]
          exact h.symm))

theorem executeSlyDeal_idx (s : GameState) (fromPid toPid : Nat)
    (tc : Option PropertyColor) (tid : Option Nat) :
    idxOf (executeSlyDeal s fromPid toPid tc tid) = s.currentPlayerIndex := by
  unfold executeSlyDeal
  dsimp only
  repeat' split
  any_goals rfl
  all_goals
    (rename_i heq
     have h := congrArg idxOf heq
     rw [playPropertyCardSt_idx] at h
     first
       | exact h.symm
       | (show (recomputePruneAt _ _ _).currentPlayerIndex = _
          rw [recomputePruneAt_idx]
          exact h.symm))

theorem executeForcedDeal_idx (s : GameState) (fromPid toPid : Nat)
    (tc : Option PropertyColor) (tid gid : Option Nat)
    (gc : Option PropertyColor) :
    idxOf (executeForcedDeal s fromPid toPid tc tid gid gc)
      = s.currentPlayerIndex := by
  unfold executeForcedDeal
  dsimp only
  repeat' split
  any_goals rfl
  any_goals exact forcedDealTaken_idx ..
  all_goals
    (rename playPropertyCardSt _ _ _ _ = _ => heq
     have h := congrArg idxOf heq
     rw [playPropertyCardSt_idx] at h
     first
       | exact h.symm
       | (rw [forcedDealTaken_idx, recomputePruneAt_idx]
          exact h.symm))

theorem executeDealBreaker_idx (s : GameState) (fromPid toPid : Nat)
    (tc : Option PropertyColor) :
    (executeDealBreaker s fromPid toPid tc).currentPlayerIndex
      = s.currentPlayerIndex := by
  unfold executeDealBreaker
  dsimp only
  repeat' split
  all_goals rfl

theorem settlePayment_idx (pid : Nat) (pa : PendingAction)
    (response : ActionResponse) (player : Player) (s : GameState) :
    idxOf (settlePayment pid pa response player s) = s.currentPlayerIndex := by
  unfold settlePayment
  dsimp only
  repeat' split
  all_goals first
    | rfl
    | (rename_i heq
       have h := congrArg idxOf heq
       rw [transferPaymentCards_idx] at h
       first
         | exact h.symm
         | (rw [updatePlayer_idx]; exact h.symm))

theorem runPendingEffect_idx (pid : Nat) (pa : PendingAction)
    (response : ActionResponse) (im : Bool) (s2 : GameState) :
    idxOf (runPendingEffect pid pa response im s2) = s2.currentPlayerIndex := by
  unfold runPendingEffect
  repeat' split
  all_goals first
    | rfl
    | apply executeSlyDeal_idx
    | apply executeForcedDeal_idx
    | (show idxOf (.ok (executeDealBreaker _ _ _ _)) = _
       exact executeDealBreaker_idx ..)

theorem clearAndAdvance_idx (s : GameState) :
    (clearAndAdvance s).currentPlayerIndex = s.currentPlayerIndex := rfl

theorem respondToAction_idx (s : GameState) (pid : Nat)
    (response : ActionResponse) :
    idxOf (respondToAction s pid response) = s.currentPlayerIndex := by
  unfold respondToAction
  dsimp only
  repeat' split
  any_goals rfl
  all_goals
    (rename settlePayment _ _ _ _ _ = _ => hpay
     have hp := congrArg idxOf hpay
     rw [settlePayment_idx] at hp
     first
       | exact hp.symm
       | (rename runPendingEffect _ _ _ _ _ = _ => heff
          have he := congrArg idxOf heff
          rw [runPendingEffect_idx] at he
          exact (hp.trans he).symm))

theorem drawCards_idx (sh : List Card → List Card) (s : GameState)
    (pid : Nat) :
    idxOf (drawCards sh s pid) = s.currentPlayerIndex := by
  unfold drawCards
  dsimp only
  repeat' split
  all_goals rfl

theorem rearrangeProperty_idx (s : GameState) (pid cid : Nat)
    (c1 c2 : PropertyColor) :
    idxOf (rearrangeProperty s pid cid c1 c2) = s.currentPlayerIndex := by
  unfold rearrangeProperty
  dsimp only
  repeat' split
  all_goals first
    | rfl
    | (show (checkWinner _).currentPlayerIndex = _
       rw [checkWinner_idx]; rfl)

theorem discardLoop_idx_and_length (pid : Nat) :
    ∀ (ids : List Nat) (s : GameState),
      idxOf (discardLoop pid s ids) = s.currentPlayerIndex ∧
      (outState (discardLoop pid s ids)).players.length
        = s.players.length := by
  intro ids
  induction ids with
  | nil => intro s; exact ⟨rfl, rfl⟩
  | cons cid rest ih =>
    intro s
    unfold discardLoop
    dsimp only
    split
    · exact ⟨rfl, rfl⟩
    · rename_i i heq
      constructor
      · rw [(ih _).1]
        rfl
      · rw [(ih _).2]
        simp [updatePlayer]

def c7Player1 : Player :=
  { id := 1, name := "a", hand := [], properties := [], bank := [] }

def c7Player2 : Player :=
  { id := 2, name := "b", hand := [], properties := [], bank := [] }

/-- A playing state in which the second participant is the current one. -/
def c7State : GameState :=
  { players := [c7Player1, c7Player2], currentPlayerIndex := 1, deck := [],
    discardPile := [], phase := .playing, turnPhase := .draw,
    actionsRemaining := 3, pendingAction := none, winner := none }

/-- C7 counterexample: `removePlayer` — neither discard-completion nor
end-turn-early — changes `currentPlayerIndex` (here from 1 to 0, because
removing the first participant leaves the index out of range and the
source resets it to 0). -/
theorem claim_C7_counterexample :
    (removePlayer c7State 1).currentPlayerIndex ≠
      c7State.currentPlayerIndex := by decide

/-- C7 (amended): `currentPlayerIndex` is unchanged by `drawCards`,
`playCard`, `respondToAction`, `rearrangeProperty`, `addPlayer` and
`getPublicGameState` (on success or throw); it advances by exactly one
modulo the participant count on discard-completion and on end-turn-early
with no pending action and a hand of at most 7 cards; but it is also
reset to 0 by `startGame`, and `removePlayer` resets it to 0 whenever
the removal leaves it out of range. -/
theorem claim_C7_amended :
    (∀ (sh : List Card → List Card) (s : GameState) (pid : Nat),
      idxOf (drawCards sh s pid) = s.currentPlayerIndex) ∧
    (∀ (sh : List Card → List Card) (s : GameState) (pid cid : Nat)
        (t : Option PlayCardTarget),
      idxOf (playCard sh s pid cid t) = s.currentPlayerIndex) ∧
    (∀ (s : GameState) (pid : Nat) (r : ActionResponse),
      idxOf (respondToAction s pid r) = s.currentPlayerIndex) ∧
    (∀ (s : GameState) (pid cid : Nat) (c1 c2 : PropertyColor),
      idxOf (rearrangeProperty s pid cid c1 c2) = s.currentPlayerIndex) ∧
    (∀ (s : GameState) (pid : Nat) (n : String),
      (addPlayer s pid n).currentPlayerIndex = s.currentPlayerIndex) ∧
    (∀ (s : GameState) (x : Option Nat),
      (getPublicGameState s x).currentPlayerIndex = s.currentPlayerIndex) ∧
    (∀ (s : GameState) (pid : Nat) (ids : List Nat) (s' : GameState),
      discardCards s pid ids = .ok s' →
      s'.currentPlayerIndex = (s.currentPlayerIndex + 1) % s.players.length) ∧
    (∀ (s : GameState) (pid : Nat) (ids : List Nat) (m : String)
        (s' : GameState),
      discardCards s pid ids = .error (m, s') →
      s'.currentPlayerIndex = s.currentPlayerIndex) ∧
    (∀ (s : GameState) (pid : Nat) (s' : GameState),
      endTurnEarly s pid = .ok s' →
      (s'.currentPlayerIndex = s.currentPlayerIndex ∧
        s'.turnPhase = .discard) ∨
      (s'.currentPlayerIndex = (s.currentPlayerIndex + 1) % s.players.length ∧
        s.pendingAction = none)) ∧
    (∀ (s : GameState) (pid : Nat) (m : String) (s' : GameState),
      endTurnEarly s pid = .error (m, s') →
      s'.currentPlayerIndex = s.currentPlayerIndex) ∧
    (∀ (s : GameState) (d : List Card) (s' : GameState),
      startGame s d = .ok s' → s'.currentPlayerIndex = 0) ∧
    (∀ (s : GameState) (d : List Card) (m : String) (s' : GameState),
      startGame s d = .error (m, s') →
      s'.currentPlayerIndex = s.currentPlayerIndex) ∧
    (∀ (s : GameState) (pid : Nat),
      (removePlayer s pid).currentPlayerIndex = s.currentPlayerIndex ∨
      (removePlayer s pid).currentPlayerIndex = 0) := by
  refine ⟨drawCards_idx, playCard_idx, respondToAction_idx,
          rearrangeProperty_idx, fun _ _ _ => rfl, fun _ _ => rfl,
          ?_, ?_, ?_, ?_, ?_, ?_, ?_⟩
  · intro s pid ids s' h
    unfold discardCards at h
    repeat' split at h
    any_goals exact Except.noConfusion h
    rename discardLoop _ _ _ = _ => heq
    have hl := discardLoop_idx_and_length pid ids s
    rw [heq] at hl
    simp only [idxOf, outState] at hl
    rw [← Except.ok.inj h]
    show (_ + 1) % _ = _
    rw [hl.1, hl.2]
  · intro s pid ids m s' h
    unfold discardCards at h
    repeat' split at h
    all_goals first
      | exact Except.noConfusion h
      | (injection h with hinj
         injection hinj with hm hs
         rw [← hs]
         done)
      | (rename discardLoop _ _ _ = _ => heq
         have hl := discardLoop_idx_and_length pid ids s
         rw [heq] at hl
         simp only [idxOf, outState] at hl
         injection h with hinj
         subst hinj
         exact hl.1)
  · intro s pid s' h
    unfold endTurnEarly at h
    repeat' split at h
    any_goals exact Except.noConfusion h
    · exact Or.inl ⟨(congrArg GameState.currentPlayerIndex
        (Except.ok.inj h)).symm, (congrArg GameState.turnPhase
        (Except.ok.inj h)).symm⟩
    · refine Or.inr ⟨(congrArg GameState.currentPlayerIndex
        (Except.ok.inj h)).symm, ?_⟩
      rename ¬ _ = true => hpend
      simpa using hpend
  · intro s pid m s' h
    unfold endTurnEarly at h
    repeat' split at h
    all_goals first
      | exact Except.noConfusion h
      | (injection h with hinj
         injection hinj with hm hs
         rw [← hs]
         done)
  · intro s d s' h
    unfold startGame at h
    repeat' split at h
    all_goals first
      | exact Except.noConfusion h
      | exact (congrArg GameState.currentPlayerIndex (Except.ok.inj h)).symm
  · intro s d m s' h
    unfold startGame at h
    repeat' split at h
    all_goals first
      | exact Except.noConfusion h
      | (injection h with hinj
         injection hinj with hm hs
         rw [← hs]
         done)
  · intro s pid
    unfold removePlayer
    dsimp only
    repeat' split
    all_goals first
      | exact Or.inl rfl
      | exact Or.inr rfl

def c7DiscardState : GameState :=
  { players :=
      [{ id := 1, name := "a",
         hand := [createMoneyCard 40 1, createMoneyCard 41 1,
                  createMoneyCard 42 1, createMoneyCard 43 1,
                  createMoneyCard 44 1, createMoneyCard 45 1,
                  createMoneyCard 46 1, createMoneyCard 47 1],
         properties := [], bank := [] },
       c7Player2],
    currentPlayerIndex := 0, deck := [], discardPile := [],
    phase := .playing, turnPhase := .discard, actionsRemaining := 0,
    pendingAction := none, winner := none }

/-- C7 witness: a concrete discard-completion advances the index by
exactly one modulo the participant count. -/
theorem claim_C7_witness :
    (outState (discardCards c7DiscardState 1 [40])).currentPlayerIndex =
      (c7DiscardState.currentPlayerIndex + 1) %
        c7DiscardState.players.length :=
  claim_C7_amended.2.2.2.2.2.2.1 c7DiscardState 1 [40]
    (outState (discardCards c7DiscardState 1 [40])) (by decide)

/-! ## C8: rent computation -/

/-- Count of qualifying property cards used by `calculateRent`. -/
def qualifyingCount (ps : PropertySet) : Nat :=
  (ps.cards.filter (fun c => c.type = .property ∨ c.isWildcard)).length

theorem rentValues_nonempty (c : PropertyColor) :
    1 ≤ (RENT_VALUES c).length := by
  cases c <;> decide

/-- C8 (confirmed): for any set with at least one qualifying property
card, the computed rent is the color's base table entry at index
`count − 1` clamped to the table's last index, plus 3 for a house and 4
for a hotel; in particular a single property yields the table's first
entry (no modifiers), and a fully-stacked set with house and hotel
yields the table's last entry + 3 + 4. -/
theorem claim_C8_theorem :
    (∀ ps : PropertySet, 1 ≤ qualifyingCount ps →
      calculateRent ps =
        (RENT_VALUES ps.color).getD
          (min (qualifyingCount ps - 1) ((RENT_VALUES ps.color).length - 1)) 0
        + (if ps.hasHouse then 3 else 0)
        + (if ps.hasHotel then 4 else 0)) ∧
    (∀ ps : PropertySet, PROPERTY_SET_REQUIREMENTS ps.color = 3 →
      qualifyingCount ps = 1 → ps.hasHouse = false → ps.hasHotel = false →
      calculateRent ps = (RENT_VALUES ps.color).getD 0 0) ∧
    (∀ ps : PropertySet,
      (RENT_VALUES ps.color).length ≤ qualifyingCount ps →
      ps.hasHouse = true → ps.hasHotel = true →
      calculateRent ps =
        (RENT_VALUES ps.color).getD ((RENT_VALUES ps.color).length - 1) 0
          + 3 + 4) := by
  refine ⟨?_, ?_, ?_⟩
  · intro ps h
    unfold calculateRent
    dsimp only
    split
    · rename_i h0
      exact absurd h (by rw [show qualifyingCount ps = 0 from h0]; omega)
    · rfl
  · intro ps _ h1 hh ht
    unfold calculateRent
    dsimp only
    split
    · rename_i h0
      rw [show qualifyingCount ps = 0 from h0] at h1
      omega
    · rw [show (ps.cards.filter
          (fun c => c.type = .property ∨ c.isWildcard)).length
            = qualifyingCount ps from rfl, h1, hh, ht]
      simp
  · intro ps hlen hh ht
    have hne := rentValues_nonempty ps.color
    unfold calculateRent
    dsimp only
    split
    · rename_i h0
      rw [show qualifyingCount ps = 0 from h0] at hlen
      omega
    · rw [show (ps.cards.filter
          (fun c => c.type = .property ∨ c.isWildcard)).length
            = qualifyingCount ps from rfl]
      have hmin : min (qualifyingCount ps - 1)
          ((RENT_VALUES ps.color).length - 1)
            = (RENT_VALUES ps.color).length - 1 := by omega
      rw [hmin]
      try simp [hh, ht]

def c8Set : PropertySet :=
  { color := .red,
    cards := [createPropertyCard 12 .red 3, createPropertyCard 13 .red 3],
    hasHouse := true, hasHotel := false, isComplete := false }

/-- C8 witness: a red set with two properties and a house rents for
`RENT_VALUES.red[1] + 3 = 6`. -/
theorem claim_C8_witness :
    1 ≤ qualifyingCount c8Set ∧ calculateRent c8Set = 6 :=
  ⟨by decide, by
    rw [claim_C8_theorem.1 c8Set (by decide)]
    decide⟩

/-! ## C9: the per-viewer projection redacts exactly the other hands -/

theorem map_const_hidden (l : List Card) :
    l.map (fun _ => hiddenCard) = List.replicate l.length hiddenCard := by
  induction l with
  | nil => rfl
  | cons c rest ih => simp [List.replicate, ih]

/-- Two states that agree everywhere except possibly in the contents of
hands of participants other than `pid` (hand lengths still agree). -/
def SameExceptOtherHands (pid : Nat) (s1 s2 : GameState) : Prop :=
  s2.currentPlayerIndex = s1.currentPlayerIndex ∧ s2.deck = s1.deck ∧
  s2.discardPile = s1.discardPile ∧ s2.phase = s1.phase ∧
  s2.turnPhase = s1.turnPhase ∧
  s2.actionsRemaining = s1.actionsRemaining ∧
  s2.pendingAction = s1.pendingAction ∧ s2.winner = s1.winner ∧
  List.Forall₂ (fun p q => q.id = p.id ∧ q.name = p.name ∧
    q.properties = p.properties ∧ q.bank = p.bank ∧
    q.isConnected = p.isConnected ∧ q.hand.length = p.hand.length ∧
    (p.id = pid → q.hand = p.hand)) s1.players s2.players

/-- C9 (confirmed): the projection keeps the nominated hand intact,
replaces every other hand card-for-card by the placeholder (preserving
the count) and every other field verbatim; consequently it cannot
distinguish two states differing only in the contents of other
participants' hands. -/
theorem claim_C9_theorem :
    (∀ (s : GameState) (pid : Nat),
      (getPublicGameState s (some pid)).players =
        s.players.map (fun p =>
          if p.id = pid then p
          else { p with
                 hand := List.replicate p.hand.length hiddenCard }) ∧
      (getPublicGameState s (some pid)).deck = s.deck ∧
      (getPublicGameState s (some pid)).discardPile = s.discardPile ∧
      (getPublicGameState s (some pid)).phase = s.phase ∧
      (getPublicGameState s (some pid)).turnPhase = s.turnPhase ∧
      (getPublicGameState s (some pid)).pendingAction = s.pendingAction ∧
      (getPublicGameState s (some pid)).winner = s.winner) ∧
    (∀ (s1 s2 : GameState) (pid : Nat),
      SameExceptOtherHands pid s1 s2 →
      getPublicGameState s1 (some pid) = getPublicGameState s2 (some pid)) := by
  constructor
  · intro s pid
    refine ⟨?_, rfl, rfl, rfl, rfl, rfl, rfl⟩
    show s.players.map _ = s.players.map _
    apply List.map_congr_left
    intro p _
    by_cases hp : p.id = pid
    · rw [if_pos (show some p.id = some pid from by rw [hp]), if_pos hp]
    · simp [hp, map_const_hidden]
  · intro s1 s2 pid h
    obtain ⟨h1, h2, h3, h4, h5, h6, h7, h8, hp⟩ := h
    have key : ∀ (l1 l2 : List Player),
        List.Forall₂ (fun p q => q.id = p.id ∧ q.name = p.name ∧
          q.properties = p.properties ∧ q.bank = p.bank ∧
          q.isConnected = p.isConnected ∧ q.hand.length = p.hand.length ∧
          (p.id = pid → q.hand = p.hand)) l1 l2 →
        l1.map (fun p =>
          { p with hand :=
              if some p.id = some pid then p.hand
              else p.hand.map (fun _ => hiddenCard) }) =
        l2.map (fun p =>
          { p with hand :=
              if some p.id = some pid then p.hand
              else p.hand.map (fun _ => hiddenCard) }) := by
      intro l1 l2 hf
      induction hf with
      | nil => rfl
      | @cons p q l1x l2x hpq hrest ih =>
        obtain ⟨hid, hname, hprops, hbank, hconn, hlen, hhand⟩ := hpq
        simp only [List.map_cons, ih]
        congr 1
        by_cases hp0 : p.id = pid
        · have hq : q = p := by
            cases p; cases q
            simp_all
            try exact hhand.symm
          rw [hq]
        · have hq0 : ¬ q.id = pid := by rw [hid]; exact hp0
          simp only [Option.some.injEq, hp0, hq0, if_neg, if_false]
          cases p; cases q
          simp_all [map_const_hidden]
    have hplayers := key s1.players s2.players hp
    cases s1; cases s2
    simp_all [getPublicGameState]

def c9A : GameState :=
  { players :=
      [{ id := 1, name := "a", hand := [createMoneyCard 10 1],
         properties := [], bank := [] },
       { id := 2, name := "b", hand := [createMoneyCard 20 2],
         properties := [], bank := [] }],
    currentPlayerIndex := 0, deck := [], discardPile := [],
    phase := .playing, turnPhase := .action, actionsRemaining := 3,
    pendingAction := none, winner := none }

/-- `c9A` with the other participant's hand swapped for a different card
of the same count. -/
def c9B : GameState :=
  { players :=
      [{ id := 1, name := "a", hand := [createMoneyCard 10 1],
         properties := [], bank := [] },
       { id := 2, name := "b", hand := [createMoneyCard 21 5],
         properties := [], bank := [] }],
    currentPlayerIndex := 0, deck := [], discardPile := [],
    phase := .playing, turnPhase := .action, actionsRemaining := 3,
    pendingAction := none, winner := none }

/-- C9 witness: two states differing only in participant 2's hand
contents project to the same snapshot for viewer 1. -/
theorem claim_C9_witness :
    getPublicGameState c9A (some 1) = getPublicGameState c9B (some 1) :=
  claim_C9_theorem.2 c9A c9B 1
    ⟨rfl, rfl, rfl, rfl, rfl, rfl, rfl, rfl,
     .cons ⟨rfl, rfl, rfl, rfl, rfl, rfl, fun _ => rfl⟩
       (.cons ⟨rfl, rfl, rfl, rfl, rfl, rfl, fun h => absurd h (by decide)⟩
         .nil)⟩

/-! ## C10: declining a payment demand -/

theorem nextPhase_ne_responding (s : GameState) :
    nextPhase s ≠ .responding := by
  unfold nextPhase
  dsimp only
  split
  · split <;> simp
  · simp

/-- C10 (confirmed): a responder to a single-target payment demand
(debt collector or targeted rent) may simply decline: `respondToAction`
with `accept = false` and no refusal play succeeds, clears the pending
action, advances the phase by the budget/hand-size rule, and leaves all
players, the draw pile and the discard pile untouched. -/
theorem claim_C10_theorem :
    ∀ (s : GameState) (pid : Nat) (pa : PendingAction)
      (resp : ActionResponse),
      s.pendingAction = some pa →
      pa.respondedPlayers = none →
      pa.amount.isSome = true →
      (pa.type = .debtCollector ∨ pa.type = .rent) →
      (findPlayer s pid).isSome = true →
      (findPlayer s pa.fromPlayerId).isSome = true →
      resp.useJustSayNo = false →
      resp.accept = false →
      ∃ s', respondToAction s pid resp = .ok s' ∧
        s'.pendingAction = none ∧
        s'.players = s.players ∧
        s'.deck = s.deck ∧
        s'.discardPile = s.discardPile ∧
        s'.phase = s.phase ∧
        s'.winner = s.winner ∧
        s'.turnPhase = nextPhase { s with pendingAction := none } := by
  intro s pid pa resp hpend hrp _hamt _htype hp hf hjsn hacc
  rcases Option.isSome_iff_exists.mp hp with ⟨player, hplayer⟩
  rcases Option.isSome_iff_exists.mp hf with ⟨fromPlayer, hfrom⟩
  refine ⟨clearAndAdvance s, ?_, rfl, rfl, rfl, rfl, rfl, rfl, rfl⟩
  unfold respondToAction
  simp only [hpend, hplayer, hfrom, hrp, hjsn, hacc, settlePayment,
    runPendingEffect, Option.isSome_none, Bool.false_and, Bool.false_eq_true,
    if_false, ite_false, Bool.and_eq_true, clearAndAdvance]

def c10State : GameState :=
  { players :=
      [{ id := 1, name := "a", hand := [], properties := [], bank := [] },
       { id := 2, name := "b", hand := [], properties := [],
         bank := [createMoneyCard 40 3] }],
    currentPlayerIndex := 0, deck := [], discardPile := [],
    phase := .playing, turnPhase := .responding, actionsRemaining := 2,
    pendingAction := some
      { type := .debtCollector, fromPlayerId := 1, toPlayerId := some 2,
        amount := some 5, card := createActionCard 70 .debtCollector 3 },
    winner := none }

def c10Pending : PendingAction :=
  { type := .debtCollector, fromPlayerId := 1, toPlayerId := some 2,
    amount := some 5, card := createActionCard 70 .debtCollector 3 }

/-- C10 witness: responder 2 declines the pending debt collector. -/
theorem claim_C10_witness :
    ∃ s', respondToAction c10State 2 { accept := false } = .ok s' ∧
      s'.pendingAction = none ∧
      s'.players = c10State.players ∧
      s'.deck = c10State.deck ∧
      s'.discardPile = c10State.discardPile ∧
      s'.phase = c10State.phase ∧
      s'.winner = c10State.winner ∧
      s'.turnPhase = nextPhase { c10State with pendingAction := none } :=
  claim_C10_theorem c10State 2 c10Pending { accept := false }
    (by decide) (by decide) (by decide) (by decide) (by decide) (by decide)
    (by decide) (by decide)

/-! ## C2: the Just-Say-No refusal chain -/

theorem findPlayer_id {s : GameState} {pid : Nat} {p : Player}
    (h : findPlayer s pid = some p) : p.id = pid := by
  have := List.find?_some h
  simpa using this

/-- `findPlayer` after an id-preserving `updatePlayer`. -/
theorem findPlayer_updatePlayer (s : GameState) (pid qid : Nat)
    (f : Player → Player) (hf : ∀ p, (f p).id = p.id) :
    findPlayer (updatePlayer s pid f) qid
      = (findPlayer s qid).map (fun p => if p.id = pid then f p else p) := by
  unfold findPlayer updatePlayer
  dsimp only
  rw [List.find?_map]
  have hpred : ((fun p => decide (p.id = qid)) ∘
      fun p => if p.id = pid then f p else p)
        = (fun p => decide (p.id = qid)) := by
    funext p
    by_cases hp : p.id = pid
    · simp [Function.comp, hp, hf]
    · simp [Function.comp, hp]
  rw [hpred]

theorem findPlayer_setDiscard (s : GameState) (d : List Card) (pid : Nat) :
    findPlayer { s with discardPile := d } pid = findPlayer s pid := rfl

/-- C2 (confirmed): responding to a single-target action with a refusal
play discards exactly one Just-Say-No card from the responder's hand and
changes nothing else about the players; if the initiator's hand has no
refusal card the pending action is cleared outright and the phase leaves
`responding`; if it has one, the pending action survives with the roles
swapped (`fromPlayerId` becomes the responder, `toPlayerId` the original
initiator) and the phase stays `responding`, so the chain consumes one
refusal card per response and is bounded by the refusal-card counts. -/
theorem claim_C2_theorem :
    ∀ (s : GameState) (pid : Nat) (pa : PendingAction)
      (resp : ActionResponse) (player fromPlayer : Player) (ji : Nat),
      s.pendingAction = some pa →
      pa.respondedPlayers = none →
      findPlayer s pid = some player →
      findPlayer s pa.fromPlayerId = some fromPlayer →
      pid ≠ pa.fromPlayerId →
      resp.useJustSayNo = true →
      player.hand.findIdx? isJustSayNoCard = some ji →
      s.turnPhase = .responding →
      isJustSayNoCard (player.hand.getD ji defaultCard) ∧
      ∃ s', respondToAction s pid resp = .ok s' ∧
        s'.players = s.players.map (fun q =>
          if q.id = pid then { q with hand := q.hand.eraseIdx ji } else q) ∧
        s'.discardPile =
          s.discardPile ++ [player.hand.getD ji defaultCard] ∧
        s'.deck = s.deck ∧ s'.phase = s.phase ∧ s'.winner = s.winner ∧
        (if fromPlayer.hand.any isJustSayNoCard then
          s'.pendingAction = some (counterPending pa pid) ∧
          s'.turnPhase = .responding
        else s'.pendingAction = none ∧ s'.turnPhase ≠ .responding) := by
  intro s pid pa resp player fromPlayer ji hpend hrp hplayer hfrom hne
    hjsn hidx hph
  constructor
  · obtain ⟨hlt, hpred, _⟩ := List.findIdx?_eq_some_iff_getElem.mp hidx
    rw [List.getD_eq_getElem player.hand defaultCard hlt]
    exact of_decide_eq_true hpred
  · have hfid : fromPlayer.id = pa.fromPlayerId := findPlayer_id hfrom
    have hfind2 : findPlayer
        (updatePlayer s pid
          (fun p => { p with hand := p.hand.eraseIdx ji }))
        pa.fromPlayerId = some fromPlayer := by
      rw [findPlayer_updatePlayer s pid pa.fromPlayerId
        (fun p => { p with hand := p.hand.eraseIdx ji })
        (fun p => rfl), hfrom]
      simp [hfid, hne.symm]
    unfold respondToAction
    simp only [hpend, hplayer, hfrom, hrp, hjsn, hidx, Option.isSome_none,
      Bool.false_and, Bool.false_eq_true, if_false, ite_false]
    rw [findPlayer_setDiscard, hfind2]
    simp only [Option.getD_some, if_true]
    by_cases hc :
        (fromPlayer.hand.any fun b => decide (isJustSayNoCard b)) = true
    · rw [if_pos hc]
      refine ⟨_, rfl, rfl, rfl, rfl, rfl, rfl, ?_⟩
      rw [if_pos hc]
      exact ⟨rfl, hph⟩
    · rw [if_neg hc]
      refine ⟨_, rfl, rfl, rfl, rfl, rfl, rfl, ?_⟩
      rw [if_neg hc]
      exact ⟨rfl, nextPhase_ne_responding _⟩

def c2Initiator : Player :=
  { id := 1, name := "a", hand := [createActionCard 61 .justSayNo 4],
    properties := [], bank := [] }

def c2Responder : Player :=
  { id := 2, name := "b", hand := [createActionCard 62 .justSayNo 4],
    properties := [], bank := [] }

def c2Pending : PendingAction :=
  { type := .debtCollector, fromPlayerId := 1, toPlayerId := some 2,
    amount := some 5, card := createActionCard 70 .debtCollector 3 }

def c2State : GameState :=
  { players := [c2Initiator, c2Responder], currentPlayerIndex := 0,
    deck := [], discardPile := [], phase := .playing,
    turnPhase := .responding, actionsRemaining := 2,
    pendingAction := some c2Pending, winner := none }

/-- C2 witness: responder 2 plays Just Say No against a debt collector
whose initiator also holds one; the refusal card is discarded and the
pending action comes back with the roles swapped. -/
theorem claim_C2_witness :
    isJustSayNoCard (c2Responder.hand.getD 0 defaultCard) ∧
    ∃ s', respondToAction c2State 2
        { accept := false, useJustSayNo := true } = .ok s' ∧
      s'.players = c2State.players.map (fun q =>
        if q.id = 2 then { q with hand := q.hand.eraseIdx 0 } else q) ∧
      s'.discardPile =
        c2State.discardPile ++ [c2Responder.hand.getD 0 defaultCard] ∧
      s'.deck = c2State.deck ∧ s'.phase = c2State.phase ∧
      s'.winner = c2State.winner ∧
      (if c2Initiator.hand.any isJustSayNoCard then
        s'.pendingAction = some (counterPending c2Pending 2) ∧
        s'.turnPhase = .responding
      else s'.pendingAction = none ∧ s'.turnPhase ≠ .responding) :=
  claim_C2_theorem c2State 2 c2Pending
    { accept := false, useJustSayNo := true } c2Responder c2Initiator 0
    (by decide) (by decide) (by decide) (by decide) (by decide)
    (by decide) (by decide) (by decide)

/-! ## C1: payment validation and settlement -/

/-- The wildcard-consistency condition under which re-playing a card with
no explicit target color (as the payment transfer loop does) cannot
throw `Invalid color for wildcard`. -/
def replayable (c : Card) : Prop :=
  ¬ (c.isWildcard ∧ c.wildcardColors.isSome ∧
      ¬ (c.wildcardColors.getD []).contains (c.color.getD .brown))

instance (c : Card) : Decidable (replayable c) := by
  unfold replayable; infer_instance

/-- `c` sits in one of `p`'s property sets of color `γ`. -/
def inSetOfColor (p : Player) (γ : PropertyColor) (c : Card) : Prop :=
  ∃ ps ∈ p.properties, ps.color = γ ∧ c ∈ ps.cards

/-- Every card the responder can offer as payment: bank and set cards. -/
def ownedCards (p : Player) : List Card := p.bank ++ allPropertyCards p

theorem findPlayer_upd_self (s : GameState) (q : Nat) (f : Player → Player)
    (hf : ∀ p, p.id = q → (f p).id = q) :
    findPlayer (updatePlayer s q f) q = (findPlayer s q).map f := by
  unfold findPlayer updatePlayer
  dsimp only
  rw [List.find?_map]
  have hpred : ((fun p : Player => decide (p.id = q)) ∘
      (fun p => if p.id = q then f p else p)) =
      (fun p : Player => decide (p.id = q)) := by
    funext p
    by_cases h : p.id = q
    · simp [Function.comp, h, hf p h]
    · simp [Function.comp, h]
  rw [hpred]
  cases hfind : s.players.find? (fun p => decide (p.id = q)) with
  | none => rfl
  | some p0 =>
    have h0 : p0.id = q := by simpa using List.find?_some hfind
    simp [h0]

theorem findPlayer_upd_other (s : GameState) (q r : Nat) (f : Player → Player)
    (hrq : r ≠ q) (hf : ∀ p, p.id = q → (f p).id = q) :
    findPlayer (updatePlayer s q f) r = findPlayer s r := by
  unfold findPlayer updatePlayer
  dsimp only
  rw [List.find?_map]
  have hpred : ((fun p : Player => decide (p.id = r)) ∘
      (fun p => if p.id = q then f p else p)) =
      (fun p : Player => decide (p.id = r)) := by
    funext p
    by_cases h : p.id = q
    · simp [Function.comp, h, hf p h, Ne.symm hrq]
    · simp [Function.comp, h]
  rw [hpred]
  cases hfind : s.players.find? (fun p => decide (p.id = r)) with
  | none => rfl
  | some p0 =>
    have h0 : p0.id = r := by simpa using List.find?_some hfind
    have h1 : ¬ p0.id = q := by rw [h0]; exact hrq
    simp [h1]

theorem nodup_middle_ne {A B : List Card} {x y : Card}
    (h : ((A ++ x :: B).map (fun c => c.id)).Nodup)
    (hy : y ∈ A ∨ y ∈ B) : y.id ≠ x.id := by
  rw [List.map_append, List.map_cons] at h
  rcases List.nodup_append.mp h with ⟨_, h2, hdisj⟩
  rcases hy with hy | hy
  · intro he
    exact hdisj (List.mem_map_of_mem _ hy)
      (by rw [he]; exact List.mem_cons_self _ _)
  · intro he
    exact (List.nodup_cons.mp h2).1 (he ▸ List.mem_map_of_mem _ hy)

theorem mem_middle_eq {A B : List Card} {x y : Card}
    (h : ((A ++ x :: B).map (fun c => c.id)).Nodup)
    (hy : y ∈ A ++ x :: B) (hid : y.id = x.id) : y = x := by
  rcases List.mem_append.mp hy with hy | hy
  · exact absurd hid (nodup_middle_ne h (Or.inl hy))
  · rcases List.mem_cons.mp hy with h' | hy
    · exact h'
    · exact absurd hid (nodup_middle_ne h (Or.inr hy))

theorem findIdx_decomp {l : List Card} {cid bi : Nat}
    (h : l.findIdx? (fun c => decide (c.id = cid)) = some bi) :
    ∃ hlt : bi < l.length,
      l = l.take bi ++ l.get ⟨bi, hlt⟩ :: l.drop (bi + 1) ∧
      l.eraseIdx bi = l.take bi ++ l.drop (bi + 1) ∧
      (l.get ⟨bi, hlt⟩).id = cid := by
  obtain ⟨hlt, hpred, _⟩ := List.findIdx?_eq_some_iff_getElem.mp h
  refine ⟨hlt, ?_, List.eraseIdx_eq_take_drop_succ l bi,
    of_decide_eq_true hpred⟩
  conv_lhs => rw [← List.take_append_drop bi l]
  rw [List.drop_eq_getElem_cons hlt]
  rfl

theorem findIdx_none_ne {l : List Card} {cid : Nat}
    (h : l.findIdx? (fun c => decide (c.id = cid)) = none) :
    ∀ c ∈ l, c.id ≠ cid := by
  intro c hc
  have := List.findIdx?_eq_none_iff.mp h c hc
  simpa using this

theorem findSetWithCard_none {props : List PropertySet} {cid : Nat}
    (h : findSetWithCard props cid = none) :
    ∀ ps ∈ props, ∀ c ∈ ps.cards, c.id ≠ cid := by
  induction props with
  | nil => intro ps hps; exact absurd hps (List.not_mem_nil ps)
  | cons p0 rest ih =>
    intro ps hps c hc
    unfold findSetWithCard at h
    cases hidx : p0.cards.findIdx? (fun c => decide (c.id = cid)) with
    | some pi => rw [hidx] at h; exact Option.noConfusion h
    | none =>
      rw [hidx] at h
      have hrest : findSetWithCard rest cid = none := by
        cases hr : findSetWithCard rest cid with
        | none => rfl
        | some q => rw [hr] at h; exact Option.noConfusion h
      rcases List.mem_cons.mp hps with rfl | hmem
      · exact findIdx_none_ne hidx c hc
      · exact ih hrest ps hmem c hc

theorem findSetWithCard_some {props : List PropertySet} {cid si pi : Nat}
    (h : findSetWithCard props cid = some (si, pi)) :
    ∃ (hsi : si < props.length)
      (hpi : pi < (props.get ⟨si, hsi⟩).cards.length),
      ((props.get ⟨si, hsi⟩).cards.get ⟨pi, hpi⟩).id = cid := by
  induction props generalizing si with
  | nil => exact Option.noConfusion h
  | cons p0 rest ih =>
    unfold findSetWithCard at h
    cases hidx : p0.cards.findIdx? (fun c => decide (c.id = cid)) with
    | some pi0 =>
      rw [hidx] at h
      have h' : (0, pi0) = (si, pi) := Option.some.inj h
      obtain ⟨h1, h2⟩ := Prod.mk.inj h'
      subst h1
      subst h2
      obtain ⟨hlt, hpred, _⟩ := List.findIdx?_eq_some_iff_getElem.mp hidx
      exact ⟨Nat.succ_pos _, hlt, of_decide_eq_true hpred⟩
    | none =>
      rw [hidx] at h
      cases hr : findSetWithCard rest cid with
      | none => rw [hr] at h; exact Option.noConfusion h
      | some q =>
        rw [hr] at h
        obtain ⟨si0, pi0⟩ := q
        have h' : (si0 + 1, pi0) = (si, pi) := Option.some.inj h
        obtain ⟨h1, h2⟩ := Prod.mk.inj h'
        subst h1
        subst h2
        obtain ⟨hsi, hpi, hid⟩ := ih hr
        exact ⟨Nat.succ_lt_succ hsi, hpi, hid⟩

theorem mem_allPropertyCards {p : Player} {d : Card} :
    d ∈ allPropertyCards p ↔ ∃ ps ∈ p.properties, d ∈ ps.cards := by
  unfold allPropertyCards
  simp [List.mem_flatten]

theorem flatten_cards_decomp (props : List PropertySet) (si : Nat)
    (hsi : si < props.length) :
    (props.map (fun ps => ps.cards)).flatten =
      ((props.take si).map (fun ps => ps.cards)).flatten ++
        ((props.get ⟨si, hsi⟩).cards ++
          ((props.drop (si + 1)).map (fun ps => ps.cards)).flatten) := by
  conv_lhs =>
    rw [← List.take_append_drop si props, List.drop_eq_getElem_cons hsi]
  rw [List.map_append, List.map_cons, List.flatten_append, List.flatten_cons]
  rfl

theorem flatten_cards_set (props : List PropertySet) (si : Nat)
    (ps1 : PropertySet) (hsi : si < props.length) :
    ((props.set si ps1).map (fun ps => ps.cards)).flatten =
      ((props.take si).map (fun ps => ps.cards)).flatten ++
        (ps1.cards ++ ((props.drop (si + 1)).map (fun ps => ps.cards)).flatten) := by
  rw [List.set_eq_take_cons_drop ps1 hsi]
  rw [List.map_append, List.map_cons, List.flatten_append, List.flatten_cons]

theorem playPropertyCardP_spec (p : Player) (c : Card) (hr : replayable c) :
    ∃ p', playPropertyCardP p c none = .ok p' ∧
      p'.id = p.id ∧ p'.bank = p.bank ∧
      inSetOfColor p' (c.color.getD .brown) c ∧
      (∀ γ d, inSetOfColor p γ d → inSetOfColor p' γ d) := by
  unfold playPropertyCardP
  dsimp only
  simp only [Option.getD_none]
  rw [if_neg hr]
  cases hidx : p.properties.findIdx?
      (fun ps => decide (ps.color = c.color.getD .brown)) with
  | some si =>
    obtain ⟨hsi, hpred, _⟩ := List.findIdx?_eq_some_iff_getElem.mp hidx
    have hcol : (p.properties[si]).color = c.color.getD .brown :=
      of_decide_eq_true hpred
    refine ⟨_, rfl, rfl, rfl, ?_, ?_⟩
    · refine ⟨updatePropertySetCompletion
        { p.properties.getD si defaultSet with
          cards := (p.properties.getD si defaultSet).cards ++ [c] },
        ?_, ?_, ?_⟩
      · have hlen : si < (p.properties.set si (updatePropertySetCompletion
            { p.properties.getD si defaultSet with
              cards := (p.properties.getD si defaultSet).cards ++ [c] })).length := by
          simpa using hsi
        have hmem := List.getElem_mem hlen
        rw [List.getElem_set_self hlen] at hmem
        exact hmem
      · show (updatePropertySetCompletion _).color = _
        unfold updatePropertySetCompletion
        dsimp only
        rw [List.getD_eq_getElem _ _ hsi]
        exact hcol
      · unfold updatePropertySetCompletion
        dsimp only
        exact List.mem_append_right _ (List.mem_singleton.mpr rfl)
    · rintro γ d ⟨qs, hqs, hqcol, hdq⟩
      obtain ⟨j, hj, hjq⟩ := List.getElem_of_mem hqs
      by_cases hji : j = si
      · subst hji
        refine ⟨updatePropertySetCompletion
          { p.properties.getD j defaultSet with
            cards := (p.properties.getD j defaultSet).cards ++ [c] },
          ?_, ?_, ?_⟩
        · have hlen : j < (p.properties.set j (updatePropertySetCompletion
              { p.properties.getD j defaultSet with
                cards := (p.properties.getD j defaultSet).cards ++ [c] })).length := by
            simpa using hj
          have hmem := List.getElem_mem hlen
          rw [List.getElem_set_self hlen] at hmem
          exact hmem
        · show (updatePropertySetCompletion _).color = _
          unfold updatePropertySetCompletion
          dsimp only
          rw [List.getD_eq_getElem _ _ hj, hjq]
          exact hqcol
        · unfold updatePropertySetCompletion
          dsimp only
          refine List.mem_append_left _ ?_
          rw [List.getD_eq_getElem _ _ hj, hjq]
          exact hdq
      · refine ⟨qs, ?_, hqcol, hdq⟩
        have hlen : j < (p.properties.set si (updatePropertySetCompletion
            { p.properties.getD si defaultSet with
              cards := (p.properties.getD si defaultSet).cards ++ [c] })).length := by
          simpa using hj
        have hmem := List.getElem_mem hlen
        rw [List.getElem_set_ne (Ne.symm hji) hlen, hjq] at hmem
        exact hmem
  | none =>
    refine ⟨_, rfl, rfl, rfl, ?_, ?_⟩
    · refine ⟨updatePropertySetCompletion
        { color := c.color.getD .brown, cards := [c], hasHouse := false,
          hasHotel := false, isComplete := false },
        List.mem_append_right _ (List.mem_singleton.mpr rfl), ?_, ?_⟩
      · rfl
      · unfold updatePropertySetCompletion
        dsimp only
        exact List.mem_singleton.mpr rfl
    · rintro γ d ⟨qs, hqs, hqcol, hdq⟩
      exact ⟨qs, List.mem_append_left _ hqs, hqcol, hdq⟩

theorem transfer_cons_bank (pid fid : Nat) (s : GameState) (cid : Nat)
    (rest : List Nat) (R : Player) (bi : Nat)
    (hR : findPlayer s pid = some R)
    (hbi : R.bank.findIdx? (fun c => decide (c.id = cid)) = some bi) :
    transferPaymentCards pid fid s (cid :: rest) =
      transferPaymentCards pid fid
        (updatePlayer
          (updatePlayer s pid
            (fun p => { p with bank := p.bank.eraseIdx bi }))
          fid
          (fun p => { p with bank := p.bank ++ [R.bank.getD bi defaultCard] }))
        rest := by
  simp only [transferPaymentCards]
  rw [hR]
  simp only [Option.getD_some]
  rw [hbi]

theorem transfer_cons_skip (pid fid : Nat) (s : GameState) (cid : Nat)
    (rest : List Nat) (R : Player)
    (hR : findPlayer s pid = some R)
    (hbi : R.bank.findIdx? (fun c => decide (c.id = cid)) = none)
    (hsw : findSetWithCard R.properties cid = none) :
    transferPaymentCards pid fid s (cid :: rest) =
      transferPaymentCards pid fid s rest := by
  simp only [transferPaymentCards]
  rw [hR]
  simp only [Option.getD_some]
  rw [hbi, hsw]

theorem transfer_cons_pp (pid fid : Nat) (s : GameState) (cid : Nat)
    (rest : List Nat) (R : Player) (si pi : Nat) (card : Card)
    (s1 s2 : GameState)
    (hR : findPlayer s pid = some R)
    (hbi : R.bank.findIdx? (fun c => decide (c.id = cid)) = none)
    (hsw : findSetWithCard R.properties cid = some (si, pi))
    (ps1 : PropertySet)
    (hcard : card = (R.properties.getD si defaultSet).cards.getD pi defaultCard)
    (hps1 : ps1 = { R.properties.getD si defaultSet with
      cards := (R.properties.getD si defaultSet).cards.eraseIdx pi })
    (hs1 : s1 = updatePlayer s pid (fun p =>
      { p with properties := p.properties.set si ps1 }))
    (hty : card.type = .property)
    (hplay : playPropertyCardSt s1 fid card none = .ok s2) :
    transferPaymentCards pid fid s (cid :: rest) =
      transferPaymentCards pid fid
        (updatePlayer s2 pid (fun p => recomputeSetAt p si)) rest := by
  subst hcard
  subst hps1
  subst hs1
  simp only [transferPaymentCards]
  rw [hR]
  simp only [Option.getD_some]
  rw [hbi, hsw]
  dsimp only
  rw [if_pos hty]
  rw [hplay]

theorem transfer_cons_pb (pid fid : Nat) (s : GameState) (cid : Nat)
    (rest : List Nat) (R : Player) (si pi : Nat) (card : Card)
    (s1 : GameState)
    (hR : findPlayer s pid = some R)
    (hbi : R.bank.findIdx? (fun c => decide (c.id = cid)) = none)
    (hsw : findSetWithCard R.properties cid = some (si, pi))
    (ps1 : PropertySet)
    (hcard : card = (R.properties.getD si defaultSet).cards.getD pi defaultCard)
    (hps1 : ps1 = { R.properties.getD si defaultSet with
      cards := (R.properties.getD si defaultSet).cards.eraseIdx pi })
    (hs1 : s1 = updatePlayer s pid (fun p =>
      { p with properties := p.properties.set si ps1 }))
    (hty : ¬ card.type = .property) :
    transferPaymentCards pid fid s (cid :: rest) =
      transferPaymentCards pid fid
        (updatePlayer
          (updatePlayer s1 fid (fun p => { p with bank := p.bank ++ [card] }))
          pid (fun p => recomputeSetAt p si)) rest := by
  subst hcard
  subst hps1
  subst hs1
  simp only [transferPaymentCards]
  rw [hR]
  simp only [Option.getD_some]
  rw [hbi, hsw]
  dsimp only
  rw [if_neg hty]

/-- The set at index `si` with the card at index `pi` spliced out
(`targetSet.cards.splice(cardIndex, 1)` of the transfer loop). -/
def erasedSetAt (props : List PropertySet) (si pi : Nat) : PropertySet :=
  { props.getD si defaultSet with
    cards := (props.getD si defaultSet).cards.eraseIdx pi }

theorem transferPaymentCards_spec (pid fid : Nat) (hne : pid ≠ fid) :
    ∀ (todo : List Nat) (s : GameState) (R I : Player),
      findPlayer s pid = some R →
      findPlayer s fid = some I →
      todo.Nodup →
      ((ownedCards R).map (fun c => c.id)).Nodup →
      (∀ c ∈ allPropertyCards R, c.id ∈ todo → c.type = .property →
        replayable c) →
      ∃ s' R' I',
        transferPaymentCards pid fid s todo = .ok s' ∧
        findPlayer s' pid = some R' ∧ findPlayer s' fid = some I' ∧
        (∀ d ∈ R'.bank, d ∈ R.bank ∧ d.id ∉ todo) ∧
        (∀ d ∈ allPropertyCards R', d ∈ allPropertyCards R ∧ d.id ∉ todo) ∧
        (∀ c ∈ R.bank, c.id ∈ todo → c ∈ I'.bank) ∧
        (∀ c ∈ allPropertyCards R, c.id ∈ todo → c.type = .property →
          inSetOfColor I' (c.color.getD .brown) c) ∧
        (∀ d ∈ I.bank, d ∈ I'.bank) ∧
        (∀ γ d, inSetOfColor I γ d → inSetOfColor I' γ d) := by
  intro todo
  induction todo with
  | nil =>
    intro s R I hR hI _ _ _
    exact ⟨s, R, I, rfl, hR, hI,
      fun d hd => ⟨hd, List.not_mem_nil _⟩,
      fun d hd => ⟨hd, List.not_mem_nil _⟩,
      fun c _ hid => absurd hid (List.not_mem_nil _),
      fun c _ hid _ => absurd hid (List.not_mem_nil _),
      fun d hd => hd, fun γ d hd => hd⟩
  | cons cid rest ih =>
    intro s R I hR hI hnd hown hrep
    have hndr : rest.Nodup := hnd.of_cons
    have hcidrest : cid ∉ rest := (List.nodup_cons.mp hnd).1
    have hrep' : ∀ c ∈ allPropertyCards R, c.id ∈ rest →
        c.type = .property → replayable c :=
      fun c hc hr ht => hrep c hc (List.mem_cons_of_mem _ hr) ht
    cases hbi : R.bank.findIdx? (fun c => decide (c.id = cid)) with
    | some bi =>
      obtain ⟨hlt, hdecomp, herase, hxid⟩ := findIdx_decomp hbi
      have hgetd : R.bank.getD bi defaultCard = R.bank.get ⟨bi, hlt⟩ := by
        rw [List.getD_eq_getElem _ _ hlt]
        rfl
      have hnm : ((R.bank.take bi ++ R.bank.get ⟨bi, hlt⟩ ::
          (R.bank.drop (bi + 1) ++ allPropertyCards R)).map
            (fun c => c.id)).Nodup := by
        have h0 := hown
        unfold ownedCards at h0
        rw [hdecomp, List.append_assoc, List.cons_append] at h0
        exact h0
      have hstep := transfer_cons_bank pid fid s cid rest R bi hR hbi
      have hR1 : findPlayer
          (updatePlayer
            (updatePlayer s pid
              (fun p => { p with bank := p.bank.eraseIdx bi }))
            fid
            (fun p => { p with bank := p.bank ++ [R.bank.getD bi defaultCard] }))
          pid = some { R with bank := R.bank.eraseIdx bi } := by
        rw [findPlayer_upd_other _ fid pid (fun p => { p with bank := p.bank ++ [R.bank.getD bi defaultCard] }) hne (fun p hp => hp)]
        rw [findPlayer_upd_self _ pid (fun p => { p with bank := p.bank.eraseIdx bi }) (fun p hp => hp)]
        rw [hR]
        rfl
      have hI1 : findPlayer
          (updatePlayer
            (updatePlayer s pid
              (fun p => { p with bank := p.bank.eraseIdx bi }))
            fid
            (fun p => { p with bank := p.bank ++ [R.bank.getD bi defaultCard] }))
          fid = some { I with bank := I.bank ++ [R.bank.getD bi defaultCard] } := by
        rw [findPlayer_upd_self _ fid (fun p => { p with bank := p.bank ++ [R.bank.getD bi defaultCard] }) (fun p hp => hp)]
        rw [findPlayer_upd_other _ pid fid (fun p => { p with bank := p.bank.eraseIdx bi }) (Ne.symm hne) (fun p hp => hp)]
        rw [hI]
        rfl
      have hsub1 : List.Sublist (ownedCards { R with bank := R.bank.eraseIdx bi })
          (ownedCards R) := by
        unfold ownedCards
        exact (List.eraseIdx_sublist R.bank bi).append_right _
      have hown1 : ((ownedCards { R with bank := R.bank.eraseIdx bi }).map
          (fun c => c.id)).Nodup :=
        List.Nodup.sublist (hsub1.map _) hown
      have hrep1 : ∀ c ∈ allPropertyCards { R with bank := R.bank.eraseIdx bi },
          c.id ∈ rest → c.type = .property → replayable c :=
        fun c hc hr ht => hrep' c hc hr ht
      obtain ⟨s', R', I', htr, hR', hI', hnegB, hnegP, hposB, hposP,
        hmonoB, hmonoS⟩ := ih _ _ _ hR1 hI1 hndr hown1 hrep1
      refine ⟨s', R', I', ?_, hR', hI', ?_, ?_, ?_, ?_, ?_, ?_⟩
      · rw [hstep]; exact htr
      · intro d hd
        obtain ⟨hd1, hd2⟩ := hnegB d hd
        have hd1' : d ∈ R.bank.take bi ++ R.bank.drop (bi + 1) := by
          rw [← herase]; exact hd1
        constructor
        · rw [hdecomp]
          rcases List.mem_append.mp hd1' with h | h
          · exact List.mem_append_left _ h
          · exact List.mem_append_right _ (List.mem_cons_of_mem _ h)
        · intro hmem
          rcases List.mem_cons.mp hmem with he | he
          · have hOr : d ∈ R.bank.take bi ∨
                d ∈ R.bank.drop (bi + 1) ++ allPropertyCards R := by
              rcases List.mem_append.mp hd1' with h | h
              · exact Or.inl h
              · exact Or.inr (List.mem_append_left _ h)
            exact nodup_middle_ne hnm hOr (he.trans hxid.symm)
          · exact hd2 he
      · intro d hd
        obtain ⟨hd1, hd2⟩ := hnegP d hd
        refine ⟨hd1, ?_⟩
        intro hmem
        rcases List.mem_cons.mp hmem with he | he
        · exact nodup_middle_ne hnm (Or.inr (List.mem_append_right _ hd1))
            (he.trans hxid.symm)
        · exact hd2 he
      · intro c hc hcid
        rcases List.mem_cons.mp hcid with he | he
        · have hcmem : c ∈ R.bank.take bi ++ R.bank.get ⟨bi, hlt⟩ ::
              (R.bank.drop (bi + 1) ++ allPropertyCards R) := by
            rw [hdecomp] at hc
            rcases List.mem_append.mp hc with h | h
            · exact List.mem_append_left _ h
            · rcases List.mem_cons.mp h with h' | h'
              · rw [h']
                exact List.mem_append_right _ (List.mem_cons_self _ _)
              · exact List.mem_append_right _ (List.mem_cons_of_mem _
                  (List.mem_append_left _ h'))
          have hcx : c = R.bank.get ⟨bi, hlt⟩ :=
            mem_middle_eq hnm hcmem (he.trans hxid.symm)
          have hcI1 : c ∈ I.bank ++ [R.bank.getD bi defaultCard] := by
            rw [hgetd, hcx]
            exact List.mem_append_right _ (List.mem_cons_self _ _)
          exact hmonoB c hcI1
        · have hcne : c ≠ R.bank.get ⟨bi, hlt⟩ := by
            intro hh
            exact hcidrest (by rw [← hxid, ← hh]; exact he)
          have hc1 : c ∈ R.bank.eraseIdx bi := by
            rw [herase]
            rw [hdecomp] at hc
            rcases List.mem_append.mp hc with h | h
            · exact List.mem_append_left _ h
            · rcases List.mem_cons.mp h with h' | h'
              · exact absurd h' hcne
              · exact List.mem_append_right _ h'
          exact hposB c hc1 he
      · intro c hc hcid hty
        rcases List.mem_cons.mp hcid with he | he
        · exact absurd (he.trans hxid.symm)
            (nodup_middle_ne hnm (Or.inr (List.mem_append_right _ hc)))
        · exact hposP c hc he hty
      · intro d hd
        exact hmonoB d (List.mem_append_left _ hd)
      · intro γ d hd
        exact hmonoS γ d hd
    | none =>
      cases hsw : findSetWithCard R.properties cid with
      | none =>
        have hstep := transfer_cons_skip pid fid s cid rest R hR hbi hsw
        obtain ⟨s', R', I', htr, hR', hI', hnegB, hnegP, hposB, hposP,
          hmonoB, hmonoS⟩ := ih s R I hR hI hndr hown hrep'
        refine ⟨s', R', I', ?_, hR', hI', ?_, ?_, ?_, ?_, hmonoB, hmonoS⟩
        · rw [hstep]; exact htr
        · intro d hd
          obtain ⟨h1, h2⟩ := hnegB d hd
          refine ⟨h1, ?_⟩
          intro hmem
          rcases List.mem_cons.mp hmem with he | he
          · exact findIdx_none_ne hbi d h1 he
          · exact h2 he
        · intro d hd
          obtain ⟨h1, h2⟩ := hnegP d hd
          refine ⟨h1, ?_⟩
          intro hmem
          rcases List.mem_cons.mp hmem with he | he
          · obtain ⟨ps, hps, hdps⟩ := mem_allPropertyCards.mp h1
            exact findSetWithCard_none hsw ps hps d hdps he
          · exact h2 he
        · intro c hc hcid
          rcases List.mem_cons.mp hcid with he | he
          · exact absurd he (findIdx_none_ne hbi c hc)
          · exact hposB c hc he
        · intro c hc hcid hty
          rcases List.mem_cons.mp hcid with he | he
          · obtain ⟨ps, hps, hcps⟩ := mem_allPropertyCards.mp hc
            exact absurd he (findSetWithCard_none hsw ps hps c hcps)
          · exact hposP c hc he hty
      | some sipi =>
        obtain ⟨si, pi⟩ := sipi
        obtain ⟨hsi, hpi, hxid0⟩ := findSetWithCard_some hsw
        have hpi' : pi < (R.properties.getD si defaultSet).cards.length := by
          rw [List.getD_eq_getElem _ _ hsi]
          exact hpi
        have hPSget : (R.properties.getD si defaultSet) = R.properties.get ⟨si, hsi⟩ := by
          rw [List.getD_eq_getElem _ _ hsi]
          rfl
        have hXget : ((R.properties.getD si defaultSet).cards.getD pi defaultCard) =
            (R.properties.get ⟨si, hsi⟩).cards.get ⟨pi, hpi⟩ := by
          rw [hPSget]
          rw [List.getD_eq_getElem _ _ hpi]
          rfl
        have hXid : ((R.properties.getD si defaultSet).cards.getD pi defaultCard).id = cid := by
          rw [hXget]
          exact hxid0
        have hPCdecomp : (R.properties.getD si defaultSet).cards =
            (R.properties.getD si defaultSet).cards.take pi ++ ((R.properties.getD si defaultSet).cards.getD pi defaultCard) :: (R.properties.getD si defaultSet).cards.drop (pi + 1) := by
          rw [List.getD_eq_getElem _ _ hpi']
          conv_lhs => rw [← List.take_append_drop pi (R.properties.getD si defaultSet).cards,
            List.drop_eq_getElem_cons hpi']
        have hEcards : (erasedSetAt R.properties si pi).cards =
            (R.properties.getD si defaultSet).cards.take pi ++ (R.properties.getD si defaultSet).cards.drop (pi + 1) :=
          List.eraseIdx_eq_take_drop_succ _ _
        have haPCR : allPropertyCards R =
            ((R.properties.take si).map (fun ps => ps.cards)).flatten ++ ((R.properties.getD si defaultSet).cards ++ ((R.properties.drop (si + 1)).map (fun ps => ps.cards)).flatten) := by
          rw [hPSget]
          exact flatten_cards_decomp R.properties si hsi
        have hmidS : allPropertyCards R =
            (((R.properties.take si).map (fun ps => ps.cards)).flatten ++ (R.properties.getD si defaultSet).cards.take pi) ++
              (((R.properties.getD si defaultSet).cards.getD pi defaultCard) :: ((R.properties.getD si defaultSet).cards.drop (pi + 1) ++ ((R.properties.drop (si + 1)).map (fun ps => ps.cards)).flatten)) := by
          rw [haPCR]
          conv_lhs => rw [hPCdecomp]
          simp [List.append_assoc]
        have hnS : ((allPropertyCards R).map (fun c => c.id)).Nodup := by
          have h0 := hown
          unfold ownedCards at h0
          rw [List.map_append] at h0
          exact (List.nodup_append.mp h0).2.1
        have hnmS : (((((R.properties.take si).map (fun ps => ps.cards)).flatten ++ (R.properties.getD si defaultSet).cards.take pi) ++
            (((R.properties.getD si defaultSet).cards.getD pi defaultCard) :: ((R.properties.getD si defaultSet).cards.drop (pi + 1) ++ ((R.properties.drop (si + 1)).map (fun ps => ps.cards)).flatten))).map
              (fun c => c.id)).Nodup := by
          rw [← hmidS]
          exact hnS
        have hXmem : ((R.properties.getD si defaultSet).cards.getD pi defaultCard) ∈ allPropertyCards R := by
          rw [hmidS]
          exact List.mem_append_right _ (List.mem_cons_self _ _)
        have hlen1 : si < (R.properties.set si (erasedSetAt R.properties si pi)).length := by
          simpa using hsi
        have hR2props : (recomputeSetAt { R with properties := R.properties.set si (erasedSetAt R.properties si pi) } si).properties =
            R.properties.set si (updatePropertySetCompletion (erasedSetAt R.properties si pi)) := by
          show (R.properties.set si (erasedSetAt R.properties si pi)).set si (updatePropertySetCompletion
            ((R.properties.set si (erasedSetAt R.properties si pi)).getD si defaultSet)) = _
          rw [List.getD_eq_getElem _ _ hlen1, List.getElem_set_self hlen1,
            List.set_set]
        have haPCR2 : allPropertyCards (recomputeSetAt { R with properties := R.properties.set si (erasedSetAt R.properties si pi) } si) =
            ((R.properties.take si).map (fun ps => ps.cards)).flatten ++ ((erasedSetAt R.properties si pi).cards ++ ((R.properties.drop (si + 1)).map (fun ps => ps.cards)).flatten) := by
          show ((recomputeSetAt { R with properties := R.properties.set si (erasedSetAt R.properties si pi) } si).properties.map (fun ps => ps.cards)).flatten = _
          rw [hR2props, flatten_cards_set R.properties si _ hsi]
          rfl
        have hsubAPC : List.Sublist (allPropertyCards (recomputeSetAt { R with properties := R.properties.set si (erasedSetAt R.properties si pi) } si)) (allPropertyCards R) := by
          rw [haPCR2, haPCR]
          have h1 : List.Sublist (erasedSetAt R.properties si pi).cards (R.properties.getD si defaultSet).cards :=
            List.eraseIdx_sublist _ _
          exact (h1.append_right _).append_left _
        have hown2 : ((ownedCards (recomputeSetAt { R with properties := R.properties.set si (erasedSetAt R.properties si pi) } si)).map (fun c => c.id)).Nodup := by
          have hsub2 : List.Sublist (ownedCards (recomputeSetAt { R with properties := R.properties.set si (erasedSetAt R.properties si pi) } si)) (ownedCards R) := by
            unfold ownedCards
            exact hsubAPC.append_left _
          exact List.Nodup.sublist (hsub2.map _) hown
        have hrep2 : ∀ c ∈ allPropertyCards (recomputeSetAt { R with properties := R.properties.set si (erasedSetAt R.properties si pi) } si), c.id ∈ rest →
            c.type = .property → replayable c :=
          fun c hc hr ht => hrep' c (hsubAPC.subset hc) hr ht
        have hfS1pid : findPlayer (updatePlayer s pid (fun p => { p with properties := p.properties.set si (erasedSetAt R.properties si pi) })) pid = some { R with properties := R.properties.set si (erasedSetAt R.properties si pi) } := by
          rw [findPlayer_upd_self _ pid (fun p => { p with properties := p.properties.set si (erasedSetAt R.properties si pi) }) (fun p hp => hp), hR]
          rfl
        have hfS1fid : findPlayer (updatePlayer s pid (fun p => { p with properties := p.properties.set si (erasedSetAt R.properties si pi) })) fid = some I := by
          rw [findPlayer_upd_other _ pid fid (fun p => { p with properties := p.properties.set si (erasedSetAt R.properties si pi) }) (Ne.symm hne) (fun p hp => hp)]
          exact hI
        by_cases htyX : ((R.properties.getD si defaultSet).cards.getD pi defaultCard).type = .property
        · obtain ⟨I1, hplayP, hI1id, hI1bank, hI1in, hI1mono⟩ :=
            playPropertyCardP_spec I ((R.properties.getD si defaultSet).cards.getD pi defaultCard)
              (hrep ((R.properties.getD si defaultSet).cards.getD pi defaultCard) hXmem (by rw [hXid]; exact List.mem_cons_self _ _) htyX)
          have hplaySt : playPropertyCardSt (updatePlayer s pid (fun p => { p with properties := p.properties.set si (erasedSetAt R.properties si pi) })) fid ((R.properties.getD si defaultSet).cards.getD pi defaultCard) none =
              .ok (updatePlayer (updatePlayer s pid (fun p => { p with properties := p.properties.set si (erasedSetAt R.properties si pi) })) fid (fun _ => I1)) := by
            unfold playPropertyCardSt
            rw [hfS1fid]
            simp only [Option.getD_some]
            rw [hplayP]
          have hfconst : ∀ p : Player, p.id = fid →
              ((fun _ : Player => I1) p).id = fid := by
            intro p _
            show I1.id = fid
            rw [hI1id]
            exact findPlayer_id hI
          have hfS2pid : findPlayer (updatePlayer (updatePlayer s pid (fun p => { p with properties := p.properties.set si (erasedSetAt R.properties si pi) })) fid (fun _ => I1)) pid =
              some { R with properties := R.properties.set si (erasedSetAt R.properties si pi) } := by
            rw [findPlayer_upd_other _ fid pid (fun _ => I1) hne hfconst]
            exact hfS1pid
          have hfS2fid : findPlayer (updatePlayer (updatePlayer s pid (fun p => { p with properties := p.properties.set si (erasedSetAt R.properties si pi) })) fid (fun _ => I1)) fid =
              some I1 := by
            rw [findPlayer_upd_self _ fid (fun _ => I1) hfconst, hfS1fid]
            rfl
          have hfS3pid : findPlayer (updatePlayer
              (updatePlayer (updatePlayer s pid (fun p => { p with properties := p.properties.set si (erasedSetAt R.properties si pi) })) fid (fun _ => I1)) pid
              (fun p => recomputeSetAt p si)) pid = some (recomputeSetAt { R with properties := R.properties.set si (erasedSetAt R.properties si pi) } si) := by
            rw [findPlayer_upd_self _ pid (fun p => recomputeSetAt p si) (fun p hp => hp), hfS2pid]
            rfl
          have hfS3fid : findPlayer (updatePlayer
              (updatePlayer (updatePlayer s pid (fun p => { p with properties := p.properties.set si (erasedSetAt R.properties si pi) })) fid (fun _ => I1)) pid
              (fun p => recomputeSetAt p si)) fid = some I1 := by
            rw [findPlayer_upd_other _ pid fid (fun p => recomputeSetAt p si) (Ne.symm hne) (fun p hp => hp)]
            exact hfS2fid
          obtain ⟨s', R', I', htr, hR', hI', hnegB, hnegP, hposB, hposP,
            hmonoB, hmonoS⟩ := ih _ _ _ hfS3pid hfS3fid hndr hown2 hrep2
          have hstep := transfer_cons_pp pid fid s cid rest R si pi
            ((R.properties.getD si defaultSet).cards.getD pi defaultCard) (updatePlayer s pid (fun p => { p with properties := p.properties.set si (erasedSetAt R.properties si pi) })) (updatePlayer (updatePlayer s pid (fun p => { p with properties := p.properties.set si (erasedSetAt R.properties si pi) })) fid (fun _ => I1))
            hR hbi hsw (erasedSetAt R.properties si pi) rfl rfl rfl htyX hplaySt
          refine ⟨s', R', I', ?_, hR', hI', ?_, ?_, ?_, ?_, ?_, ?_⟩
          · rw [hstep]; exact htr
          · intro d hd
            obtain ⟨hd1, hd2⟩ := hnegB d hd
            refine ⟨hd1, ?_⟩
            intro hmem
            rcases List.mem_cons.mp hmem with he | he
            · exact findIdx_none_ne hbi d hd1 he
            · exact hd2 he
          · intro d hd
            obtain ⟨hd1, hd2⟩ := hnegP d hd
            have hd1' : d ∈ ((R.properties.take si).map (fun ps => ps.cards)).flatten ++ (((R.properties.getD si defaultSet).cards.take pi ++ (R.properties.getD si defaultSet).cards.drop (pi + 1)) ++ ((R.properties.drop (si + 1)).map (fun ps => ps.cards)).flatten) := by
              rw [← hEcards, ← haPCR2]
              exact hd1
            have hdAB : d ∈ ((R.properties.take si).map (fun ps => ps.cards)).flatten ++ (R.properties.getD si defaultSet).cards.take pi ∨ d ∈ (R.properties.getD si defaultSet).cards.drop (pi + 1) ++ ((R.properties.drop (si + 1)).map (fun ps => ps.cards)).flatten := by
              rcases List.mem_append.mp hd1' with h | h
              · exact Or.inl (List.mem_append_left _ h)
              · rcases List.mem_append.mp h with h' | h'
                · rcases List.mem_append.mp h' with h2 | h2
                  · exact Or.inl (List.mem_append_right _ h2)
                  · exact Or.inr (List.mem_append_left _ h2)
                · exact Or.inr (List.mem_append_right _ h')
            constructor
            · rw [hmidS]
              rcases hdAB with h | h
              · exact List.mem_append_left _ h
              · exact List.mem_append_right _ (List.mem_cons_of_mem _ h)
            · intro hmem
              rcases List.mem_cons.mp hmem with he | he
              · exact nodup_middle_ne hnmS hdAB (he.trans hXid.symm)
              · exact hd2 he
          · intro c hc hcid
            rcases List.mem_cons.mp hcid with he | he
            · exact absurd he (findIdx_none_ne hbi c hc)
            · exact hposB c hc he
          · intro c hc hcid hty
            rcases List.mem_cons.mp hcid with he | he
            · have hc' : c ∈ (((R.properties.take si).map (fun ps => ps.cards)).flatten ++ (R.properties.getD si defaultSet).cards.take pi) ++
                  (((R.properties.getD si defaultSet).cards.getD pi defaultCard) :: ((R.properties.getD si defaultSet).cards.drop (pi + 1) ++ ((R.properties.drop (si + 1)).map (fun ps => ps.cards)).flatten)) := by
                rw [← hmidS]
                exact hc
              have hcx : c = ((R.properties.getD si defaultSet).cards.getD pi defaultCard) :=
                mem_middle_eq hnmS hc' (he.trans hXid.symm)
              rw [hcx]
              exact hmonoS _ _ hI1in
            · have hcne : c ≠ ((R.properties.getD si defaultSet).cards.getD pi defaultCard) := by
                intro hh
                exact hcidrest (by rw [← hXid, ← hh]; exact he)
              have hc' : c ∈ (((R.properties.take si).map (fun ps => ps.cards)).flatten ++ (R.properties.getD si defaultSet).cards.take pi) ++
                  (((R.properties.getD si defaultSet).cards.getD pi defaultCard) :: ((R.properties.getD si defaultSet).cards.drop (pi + 1) ++ ((R.properties.drop (si + 1)).map (fun ps => ps.cards)).flatten)) := by
                rw [← hmidS]
                exact hc
              have hc2 : c ∈ allPropertyCards (recomputeSetAt { R with properties := R.properties.set si (erasedSetAt R.properties si pi) } si) := by
                rw [haPCR2, hEcards]
                rcases List.mem_append.mp hc' with h | h
                · rcases List.mem_append.mp h with h' | h'
                  · exact List.mem_append_left _ h'
                  · exact List.mem_append_right _ (List.mem_append_left _
                      (List.mem_append_left _ h'))
                · rcases List.mem_cons.mp h with h' | h'
                  · exact absurd h' hcne
                  · rcases List.mem_append.mp h' with h2 | h2
                    · exact List.mem_append_right _ (List.mem_append_left _
                        (List.mem_append_right _ h2))
                    · exact List.mem_append_right _ (List.mem_append_right _ h2)
              exact hposP c hc2 he hty
          · intro d hd
            refine hmonoB d ?_
            rw [hI1bank]
            exact hd
          · intro γ d hd
            exact hmonoS γ d (hI1mono γ d hd)
        · have hplayerNoProp : ∀ hty2 : ((R.properties.getD si defaultSet).cards.getD pi defaultCard).type = .property, False :=
            fun hty2 => htyX hty2
          have hfS2pid : findPlayer (updatePlayer (updatePlayer s pid (fun p => { p with properties := p.properties.set si (erasedSetAt R.properties si pi) })) fid
              (fun p => { p with bank := p.bank ++ [((R.properties.getD si defaultSet).cards.getD pi defaultCard)] })) pid =
              some { R with properties := R.properties.set si (erasedSetAt R.properties si pi) } := by
            rw [findPlayer_upd_other _ fid pid (fun p => { p with bank := p.bank ++ [((R.properties.getD si defaultSet).cards.getD pi defaultCard)] }) hne (fun p hp => hp)]
            exact hfS1pid
          have hfS2fid : findPlayer (updatePlayer (updatePlayer s pid (fun p => { p with properties := p.properties.set si (erasedSetAt R.properties si pi) })) fid
              (fun p => { p with bank := p.bank ++ [((R.properties.getD si defaultSet).cards.getD pi defaultCard)] })) fid =
              some { I with bank := I.bank ++ [((R.properties.getD si defaultSet).cards.getD pi defaultCard)] } := by
            rw [findPlayer_upd_self _ fid (fun p => { p with bank := p.bank ++ [((R.properties.getD si defaultSet).cards.getD pi defaultCard)] }) (fun p hp => hp), hfS1fid]
            rfl
          have hfS3pid : findPlayer (updatePlayer (updatePlayer (updatePlayer s pid (fun p => { p with properties := p.properties.set si (erasedSetAt R.properties si pi) })) fid
              (fun p => { p with bank := p.bank ++ [((R.properties.getD si defaultSet).cards.getD pi defaultCard)] })) pid
              (fun p => recomputeSetAt p si)) pid = some (recomputeSetAt { R with properties := R.properties.set si (erasedSetAt R.properties si pi) } si) := by
            rw [findPlayer_upd_self _ pid (fun p => recomputeSetAt p si) (fun p hp => hp), hfS2pid]
            rfl
          have hfS3fid : findPlayer (updatePlayer (updatePlayer (updatePlayer s pid (fun p => { p with properties := p.properties.set si (erasedSetAt R.properties si pi) })) fid
              (fun p => { p with bank := p.bank ++ [((R.properties.getD si defaultSet).cards.getD pi defaultCard)] })) pid
              (fun p => recomputeSetAt p si)) fid =
              some { I with bank := I.bank ++ [((R.properties.getD si defaultSet).cards.getD pi defaultCard)] } := by
            rw [findPlayer_upd_other _ pid fid (fun p => recomputeSetAt p si) (Ne.symm hne) (fun p hp => hp)]
            exact hfS2fid
          obtain ⟨s', R', I', htr, hR', hI', hnegB, hnegP, hposB, hposP,
            hmonoB, hmonoS⟩ := ih _ _ _ hfS3pid hfS3fid hndr hown2 hrep2
          have hstep := transfer_cons_pb pid fid s cid rest R si pi
            ((R.properties.getD si defaultSet).cards.getD pi defaultCard) (updatePlayer s pid (fun p => { p with properties := p.properties.set si (erasedSetAt R.properties si pi) })) hR hbi hsw (erasedSetAt R.properties si pi) rfl rfl rfl htyX
          refine ⟨s', R', I', ?_, hR', hI', ?_, ?_, ?_, ?_, ?_, ?_⟩
          · rw [hstep]; exact htr
          · intro d hd
            obtain ⟨hd1, hd2⟩ := hnegB d hd
            refine ⟨hd1, ?_⟩
            intro hmem
            rcases List.mem_cons.mp hmem with he | he
            · exact findIdx_none_ne hbi d hd1 he
            · exact hd2 he
          · intro d hd
            obtain ⟨hd1, hd2⟩ := hnegP d hd
            have hd1' : d ∈ ((R.properties.take si).map (fun ps => ps.cards)).flatten ++ (((R.properties.getD si defaultSet).cards.take pi ++ (R.properties.getD si defaultSet).cards.drop (pi + 1)) ++ ((R.properties.drop (si + 1)).map (fun ps => ps.cards)).flatten) := by
              rw [← hEcards, ← haPCR2]
              exact hd1
            have hdAB : d ∈ ((R.properties.take si).map (fun ps => ps.cards)).flatten ++ (R.properties.getD si defaultSet).cards.take pi ∨ d ∈ (R.properties.getD si defaultSet).cards.drop (pi + 1) ++ ((R.properties.drop (si + 1)).map (fun ps => ps.cards)).flatten := by
              rcases List.mem_append.mp hd1' with h | h
              · exact Or.inl (List.mem_append_left _ h)
              · rcases List.mem_append.mp h with h' | h'
                · rcases List.mem_append.mp h' with h2 | h2
                  · exact Or.inl (List.mem_append_right _ h2)
                  · exact Or.inr (List.mem_append_left _ h2)
                · exact Or.inr (List.mem_append_right _ h')
            constructor
            · rw [hmidS]
              rcases hdAB with h | h
              · exact List.mem_append_left _ h
              · exact List.mem_append_right _ (List.mem_cons_of_mem _ h)
            · intro hmem
              rcases List.mem_cons.mp hmem with he | he
              · exact nodup_middle_ne hnmS hdAB (he.trans hXid.symm)
              · exact hd2 he
          · intro c hc hcid
            rcases List.mem_cons.mp hcid with he | he
            · exact absurd he (findIdx_none_ne hbi c hc)
            · exact hposB c hc he
          · intro c hc hcid hty
            rcases List.mem_cons.mp hcid with he | he
            · have hc' : c ∈ (((R.properties.take si).map (fun ps => ps.cards)).flatten ++ (R.properties.getD si defaultSet).cards.take pi) ++
                  (((R.properties.getD si defaultSet).cards.getD pi defaultCard) :: ((R.properties.getD si defaultSet).cards.drop (pi + 1) ++ ((R.properties.drop (si + 1)).map (fun ps => ps.cards)).flatten)) := by
                rw [← hmidS]
                exact hc
              have hcx : c = ((R.properties.getD si defaultSet).cards.getD pi defaultCard) :=
                mem_middle_eq hnmS hc' (he.trans hXid.symm)
              rw [hcx] at hty
              exact absurd hty htyX
            · have hcne : c ≠ ((R.properties.getD si defaultSet).cards.getD pi defaultCard) := by
                intro hh
                exact hcidrest (by rw [← hXid, ← hh]; exact he)
              have hc' : c ∈ (((R.properties.take si).map (fun ps => ps.cards)).flatten ++ (R.properties.getD si defaultSet).cards.take pi) ++
                  (((R.properties.getD si defaultSet).cards.getD pi defaultCard) :: ((R.properties.getD si defaultSet).cards.drop (pi + 1) ++ ((R.properties.drop (si + 1)).map (fun ps => ps.cards)).flatten)) := by
                rw [← hmidS]
                exact hc
              have hc2 : c ∈ allPropertyCards (recomputeSetAt { R with properties := R.properties.set si (erasedSetAt R.properties si pi) } si) := by
                rw [haPCR2, hEcards]
                rcases List.mem_append.mp hc' with h | h
                · rcases List.mem_append.mp h with h' | h'
                  · exact List.mem_append_left _ h'
                  · exact List.mem_append_right _ (List.mem_append_left _
                      (List.mem_append_left _ h'))
                · rcases List.mem_cons.mp h with h' | h'
                  · exact absurd h' hcne
                  · rcases List.mem_append.mp h' with h2 | h2
                    · exact List.mem_append_right _ (List.mem_append_left _
                        (List.mem_append_right _ h2))
                    · exact List.mem_append_right _ (List.mem_append_right _ h2)
              exact hposP c hc2 he hty
          · intro d hd
            exact hmonoB d (List.mem_append_left _ hd)
          · intro γ d hd
            exact hmonoS γ d hd

theorem findPlayer_clearAndAdvance (s : GameState) (q : Nat) :
    findPlayer (clearAndAdvance s) q = findPlayer s q := rfl

theorem findPlayer_congr (t u : GameState) (q : Nat)
    (h : t.players = u.players) : findPlayer t q = findPlayer u q := by
  unfold findPlayer
  rw [h]

/-- C1 (confirmed): for any pending action with a required amount --
single-target or broadcast alike, as the payment block is shape-neutral --
and any responder who has not already responded: with positive liquid
assets, an accepting response whose offered cards are worth less than
`min(requiredAmount, totalAssets)` is rejected with the exact error and
the untouched state; when the offer meets that minimum (and the offered
ids are distinct, owned, and wildcard-consistent) the response succeeds
and every offered bank card moves to the initiator's bank, every offered
property-type set card lands in one of the initiator's sets of the card's
own color, the offered cards leave the responder, and the responder is
left with no empty property set. -/
theorem claim_C1_theorem :
    (∀ (s : GameState) (pid : Nat) (pa : PendingAction)
       (resp : ActionResponse) (player : Player) (amt : Nat),
      s.pendingAction = some pa →
      (pa.respondedPlayers.getD []).contains pid = false →
      pa.amount = some amt →
      amt ≠ 0 →
      findPlayer s pid = some player →
      (findPlayer s pa.fromPlayerId).isSome = true →
      resp.useJustSayNo = false →
      resp.accept = true →
      0 < totalAssetsOf player →
      paymentValueOf player (resp.paymentCardIds.getD []) <
        min amt (totalAssetsOf player) →
      respondToAction s pid resp =
        .error ("You must pay at least the minimum payment", s)) ∧
    (∀ (s : GameState) (pid : Nat) (pa : PendingAction)
       (resp : ActionResponse) (player fromPlayer : Player)
       (amt : Nat) (ids : List Nat),
      s.pendingAction = some pa →
      (pa.respondedPlayers.getD []).contains pid = false →
      pa.amount = some amt →
      amt ≠ 0 →
      (pa.type = .debtCollector ∨ pa.type = .rent ∨ pa.type = .birthday) →
      findPlayer s pid = some player →
      findPlayer s pa.fromPlayerId = some fromPlayer →
      pid ≠ pa.fromPlayerId →
      resp.useJustSayNo = false →
      resp.accept = true →
      resp.paymentCardIds = some ids →
      ids.Nodup →
      ((ownedCards player).map (fun c => c.id)).Nodup →
      (∀ c ∈ allPropertyCards player, c.id ∈ ids → c.type = .property →
        replayable c) →
      min amt (totalAssetsOf player) ≤ paymentValueOf player ids →
      ∃ t R' I',
        respondToAction s pid resp = .ok t ∧
        findPlayer t pid = some R' ∧
        findPlayer t pa.fromPlayerId = some I' ∧
        (∀ c ∈ player.bank, c.id ∈ ids → c ∈ I'.bank) ∧
        (∀ c ∈ allPropertyCards player, c.id ∈ ids → c.type = .property →
          inSetOfColor I' (c.color.getD .brown) c) ∧
        (∀ d ∈ R'.bank, d ∈ player.bank ∧ d.id ∉ ids) ∧
        (∀ d ∈ allPropertyCards R', d ∈ allPropertyCards player ∧
          d.id ∉ ids) ∧
        (∀ qs ∈ R'.properties, qs.cards ≠ [])) := by
  constructor
  · intro s pid pa resp player amt hpend hcont hamt hamt0 hplayer hfrom hjsn
      hacc hassets hlt
    rcases Option.isSome_iff_exists.mp hfrom with ⟨fromPlayer, hfromeq⟩
    have hsettle : settlePayment pid pa resp player s =
        .error ("You must pay at least the minimum payment", s) := by
      unfold settlePayment
      rw [hacc, hamt]
      simp only [Option.getD_some]
      rw [if_pos (by simp [hamt0])]
      rw [if_pos ⟨hassets, hlt⟩]
    unfold respondToAction
    simp only [hpend, hplayer, hfromeq, hcont, hjsn, Bool.and_false,
      Bool.false_eq_true, if_false, ite_false]
    rw [hsettle]
  · intro s pid pa resp player fromPlayer amt ids hpend hcont hamt hamt0
      htype hplayer hfrom hne hjsn hacc hpay hndids hown hrepH hmeets
    obtain ⟨s', R', I', htr, hR', hI', hnegB, hnegP, hposB, hposP, hmonoB,
      hmonoS⟩ := transferPaymentCards_spec pid pa.fromPlayerId hne ids s
        player fromPlayer hplayer hfrom hndids hown hrepH
    have hsettle : settlePayment pid pa resp player s =
        .ok (updatePlayer s' pid pruneEmptySets) := by
      unfold settlePayment
      rw [hacc, hamt]
      simp only [Option.getD_some]
      rw [if_pos (by simp [hamt0])]
      rw [hpay]
      simp only [Option.getD_some]
      rw [if_neg (fun h => absurd h.2 (Nat.not_lt.mpr hmeets))]
      rw [htr]
    have hrun : ∀ im : Bool, runPendingEffect pid pa resp im
        (updatePlayer s' pid pruneEmptySets) =
        .ok (updatePlayer s' pid pruneEmptySets) := by
      intro im
      unfold runPendingEffect
      split
      · rcases htype with ht | ht | ht <;> rw [ht] <;> rfl
      · rfl
    have hfin : ∃ t, respondToAction s pid resp = .ok t ∧
        t.players = (updatePlayer s' pid pruneEmptySets).players := by
      unfold respondToAction
      simp only [hpend, hplayer, hfrom, hcont, hjsn, Bool.and_false,
        Bool.false_eq_true, if_false, ite_false]
      rw [hsettle]
      dsimp only
      rw [hrun]
      dsimp only
      split
      · split
        · exact ⟨_, rfl, rfl⟩
        · exact ⟨_, rfl, rfl⟩
      · exact ⟨_, rfl, rfl⟩
    obtain ⟨t, heq, hpl⟩ := hfin
    have hfp : findPlayer t pid = some (pruneEmptySets R') := by
      rw [findPlayer_congr t (updatePlayer s' pid pruneEmptySets) pid hpl,
        findPlayer_upd_self _ pid pruneEmptySets (fun p hp => hp), hR']
      rfl
    have hfi : findPlayer t pa.fromPlayerId = some I' := by
      rw [findPlayer_congr t (updatePlayer s' pid pruneEmptySets)
          pa.fromPlayerId hpl,
        findPlayer_upd_other _ pid pa.fromPlayerId pruneEmptySets
          (Ne.symm hne) (fun p hp => hp)]
      exact hI'
    refine ⟨t, pruneEmptySets R', I', heq, hfp, hfi, hposB, hposP,
      ?_, ?_, ?_⟩
    · intro d hd
      exact hnegB d hd
    · intro d hd
      obtain ⟨qs, hqs, hdqs⟩ := mem_allPropertyCards.mp hd
      have hqs' : qs ∈ R'.properties := (List.mem_filter.mp hqs).1
      exact hnegP d (mem_allPropertyCards.mpr ⟨qs, hqs', hdqs⟩)
    · intro qs hqs
      have h1 : 0 < qs.cards.length :=
        of_decide_eq_true (List.mem_filter.mp hqs).2
      exact List.ne_nil_of_length_pos h1

def c1Initiator : Player :=
  { id := 1, name := "a", hand := [], properties := [], bank := [] }

/-- Responder owning one bank card (value 3) and one brown property
(value 1): total liquid assets 4. -/
def c1Responder : Player :=
  { id := 2, name := "b", hand := [],
    properties :=
      [{ color := .brown, cards := [createPropertyCard 7 .brown 1],
         hasHouse := false, hasHotel := false, isComplete := false }],
    bank := [createMoneyCard 40 3] }

/-- A broadcast (multi-target) payment demand: a Birthday action, whose
`respondedPlayers` list is the empty list rather than null. -/
def c1Pending : PendingAction :=
  { type := .birthday, fromPlayerId := 1, amount := some 4,
    card := createActionCard 73 .birthday 2, respondedPlayers := some [] }

def c1State : GameState :=
  { players := [c1Initiator, c1Responder], currentPlayerIndex := 0,
    deck := [], discardPile := [], phase := .playing,
    turnPhase := .responding, actionsRemaining := 2,
    pendingAction := some c1Pending, winner := none }

/-- C1 witness, on a broadcast Birthday demand: paying nothing is
rejected unchanged; paying the bank card plus the brown property
(value 4 = min(4, 4)) succeeds, moving the money to the initiator's bank
and the property into the initiator's brown set, emptying the
responder. -/
theorem claim_C1_witness :
    respondToAction c1State 2 { accept := true } =
      .error ("You must pay at least the minimum payment", c1State) ∧
    ∃ t R' I',
      respondToAction c1State 2
        { accept := true, paymentCardIds := some [40, 7] } = .ok t ∧
      findPlayer t 2 = some R' ∧
      findPlayer t 1 = some I' ∧
      (∀ c ∈ c1Responder.bank, c.id ∈ [40, 7] → c ∈ I'.bank) ∧
      (∀ c ∈ allPropertyCards c1Responder, c.id ∈ [40, 7] →
        c.type = .property → inSetOfColor I' (c.color.getD .brown) c) ∧
      (∀ d ∈ R'.bank, d ∈ c1Responder.bank ∧ d.id ∉ [40, 7]) ∧
      (∀ d ∈ allPropertyCards R', d ∈ allPropertyCards c1Responder ∧
        d.id ∉ [40, 7]) ∧
      (∀ qs ∈ R'.properties, qs.cards ≠ []) :=
  ⟨claim_C1_theorem.1 c1State 2 c1Pending { accept := true } c1Responder 4
      (by decide) (by decide) (by decide) (by decide) (by decide) (by decide)
      (by decide) (by decide) (by decide) (by decide),
   claim_C1_theorem.2 c1State 2 c1Pending
      { accept := true, paymentCardIds := some [40, 7] } c1Responder
      c1Initiator 4 [40, 7]
      (by decide) (by decide) (by decide) (by decide) (by decide) (by decide)
      (by decide) (by decide) (by decide) (by decide) (by decide) (by decide)
      (by decide) (by decide) (by decide)⟩

/-! ## C3: the pending-action / responding-phase invariant -/

def phOf (r : GameResult) : TurnPhase := (outState r).turnPhase

theorem updatePlayer_ph (s : GameState) (pid : Nat) (f : Player → Player) :
    (updatePlayer s pid f).turnPhase = s.turnPhase := rfl

theorem checkWinner_ph (s : GameState) :
    (checkWinner s).turnPhase = s.turnPhase := by
  unfold checkWinner; split <;> rfl

theorem checkWinner_pd (s : GameState) :
    (checkWinner s).pendingAction = s.pendingAction := by
  unfold checkWinner; split <;> rfl

theorem playPropertyCardSt_ph (s : GameState) (pid : Nat) (c : Card)
    (tc : Option PropertyColor) :
    phOf (playPropertyCardSt s pid c tc) = s.turnPhase := by
  unfold playPropertyCardSt
  split <;> rfl

theorem transferPaymentCards_ph (pid fid : Nat) :
    ∀ (ids : List Nat) (s : GameState),
      phOf (transferPaymentCards pid fid s ids) = s.turnPhase := by
  intro ids
  induction ids with
  | nil => intro s; rfl
  | cons cid rest ih =>
    intro s
    unfold transferPaymentCards
    dsimp only
    repeat' split
    all_goals first
      | (rename_i sx heq
         rw [ih, updatePlayer_ph]
         have h := congrArg phOf heq
         rw [playPropertyCardSt_ph] at h
         exact h.symm)
      | (rename_i heq
         have h := congrArg phOf heq
         rw [playPropertyCardSt_ph] at h
         exact h.symm)
      | (rw [ih]; try rfl)

theorem recomputePruneAt_ph (s : GameState) (pid si : Nat) :
    (recomputePruneAt s pid si).turnPhase = s.turnPhase := rfl

theorem forcedDealTaken_ph (s : GameState) (fromPid toPid si : Nat)
    (tc : Option PropertyColor) (tk : Option Card) :
    phOf (forcedDealTaken s fromPid toPid si tc tk) = s.turnPhase := by
  unfold forcedDealTaken
  repeat' split
  any_goals rfl
  all_goals
    (rename_i heq
     have h := congrArg phOf heq
     rw [playPropertyCardSt_ph] at h
     first
       | exact h.symm
       | (show (recomputePruneAt _ _ _).turnPhase = _
          rw [recomputePruneAt_ph]
          exact h.symm))

theorem executeSlyDeal_ph (s : GameState) (fromPid toPid : Nat)
    (tc : Option PropertyColor) (tid : Option Nat) :
    phOf (executeSlyDeal s fromPid toPid tc tid) = s.turnPhase := by
  unfold executeSlyDeal
  dsimp only
  repeat' split
  any_goals rfl
  all_goals
    (rename_i heq
     have h := congrArg phOf heq
     rw [playPropertyCardSt_ph] at h
     first
       | exact h.symm
       | (show (recomputePruneAt _ _ _).turnPhase = _
          rw [recomputePruneAt_ph]
          exact h.symm))

theorem executeForcedDeal_ph (s : GameState) (fromPid toPid : Nat)
    (tc : Option PropertyColor) (tid gid : Option Nat)
    (gc : Option PropertyColor) :
    phOf (executeForcedDeal s fromPid toPid tc tid gid gc) = s.turnPhase := by
  unfold executeForcedDeal
  dsimp only
  repeat' split
  any_goals rfl
  any_goals exact forcedDealTaken_ph ..
  all_goals
    (rename playPropertyCardSt _ _ _ _ = _ => heq
     have h := congrArg phOf heq
     rw [playPropertyCardSt_ph] at h
     first
       | exact h.symm
       | (rw [forcedDealTaken_ph, recomputePruneAt_ph]
          exact h.symm))

theorem executeDealBreaker_ph (s : GameState) (fromPid toPid : Nat)
    (tc : Option PropertyColor) :
    (executeDealBreaker s fromPid toPid tc).turnPhase = s.turnPhase := by
  unfold executeDealBreaker
  dsimp only
  repeat' split
  all_goals rfl

theorem settlePayment_ph (pid : Nat) (pa : PendingAction)
    (response : ActionResponse) (player : Player) (s : GameState) :
    phOf (settlePayment pid pa response player s) = s.turnPhase := by
  unfold settlePayment
  dsimp only
  repeat' split
  all_goals first
    | rfl
    | (rename_i heq
       have h := congrArg phOf heq
       rw [transferPaymentCards_ph] at h
       first
         | exact h.symm
         | (rw [updatePlayer_ph]; exact h.symm))

theorem runPendingEffect_ph (pid : Nat) (pa : PendingAction)
    (response : ActionResponse) (im : Bool) (s2 : GameState) :
    phOf (runPendingEffect pid pa response im s2) = s2.turnPhase := by
  unfold runPendingEffect
  repeat' split
  all_goals first
    | rfl
    | apply executeSlyDeal_ph
    | apply executeForcedDeal_ph
    | (show phOf (.ok (executeDealBreaker _ _ _ _)) = _
       exact executeDealBreaker_ph ..)

/-- The claimed invariant: a pending action exists iff the turn phase is
`responding`. -/
def Inv (s : GameState) : Prop :=
  s.pendingAction.isSome = true ↔ s.turnPhase = .responding

instance (s : GameState) : Decidable (Inv s) := by
  unfold Inv; infer_instance

theorem Inv_createGameState (d : List Card) : Inv (createGameState d) := by
  simp [Inv, createGameState]

theorem Inv_addPlayer (s : GameState) (pid : Nat) (name : String)
    (hs : Inv s) : Inv (addPlayer s pid name) := hs

theorem Inv_removePlayer (s : GameState) (pid : Nat) (hs : Inv s) :
    Inv (removePlayer s pid) := by
  unfold removePlayer
  split
  · exact hs
  · exact hs

theorem Inv_startGame (s : GameState) (d : List Card) (s' : GameState)
    (hpd : s.pendingAction = none) (h : startGame s d = .ok s') : Inv s' := by
  unfold startGame at h
  repeat' split at h
  all_goals first
    | exact Except.noConfusion h
    | (rw [← Except.ok.inj h]; simp [Inv, hpd])

theorem Inv_endTurn (s : GameState) : Inv (endTurn s) := by
  simp [Inv, endTurn]

theorem Inv_clearAndAdvance (s : GameState) : Inv (clearAndAdvance s) := by
  unfold Inv clearAndAdvance
  dsimp only
  simp [nextPhase_ne_responding { s with pendingAction := none }]

theorem Inv_pending_none {s : GameState} (hs : Inv s)
    (hph : s.turnPhase ≠ .responding) : s.pendingAction = none := by
  cases hq : s.pendingAction with
  | none => rfl
  | some v =>
    have := hs.mp (by rw [hq]; rfl)
    exact absurd this hph

theorem Inv_drawCards (sh : List Card → List Card) (s : GameState)
    (pid : Nat) (s' : GameState) (hs : Inv s)
    (h : drawCards sh s pid = .ok s') : Inv s' := by
  unfold drawCards at h
  dsimp only at h
  repeat' split at h
  all_goals first
    | exact Except.noConfusion h
    | (rename ¬ s.turnPhase ≠ TurnPhase.draw => hdr
       have hdraw : s.turnPhase = .draw := not_not.mp hdr
       have hpd : s.pendingAction = none :=
         Inv_pending_none hs (by rw [hdraw]; simp)
       rw [← Except.ok.inj h]
       simp [Inv, updatePlayer, hpd])

theorem Inv_discardCards (s : GameState) (pid : Nat) (ids : List Nat)
    (s' : GameState) (h : discardCards s pid ids = .ok s') : Inv s' := by
  unfold discardCards at h
  repeat' split at h
  all_goals first
    | exact Except.noConfusion h
    | (rw [← Except.ok.inj h]; exact Inv_endTurn _)

theorem Inv_endTurnEarly (s : GameState) (pid : Nat) (s' : GameState)
    (h : endTurnEarly s pid = .ok s') : Inv s' := by
  unfold endTurnEarly at h
  repeat' split at h
  all_goals first
    | exact Except.noConfusion h
    | (rw [← Except.ok.inj h]; exact Inv_endTurn _)
    | (rename ¬ s.pendingAction.isSome = true => hpd
       rename ¬ (s.turnPhase ≠ TurnPhase.action ∧ _) => hph
       rw [← Except.ok.inj h]
       constructor
       · intro hp
         exact absurd hp hpd
       · intro hp
         exact absurd hp (by simp))

theorem Inv_rearrangeProperty (s : GameState) (pid cid : Nat)
    (c1 c2 : PropertyColor) (s' : GameState) (hs : Inv s)
    (h : rearrangeProperty s pid cid c1 c2 = .ok s') : Inv s' := by
  unfold rearrangeProperty at h
  dsimp only at h
  repeat' split at h
  all_goals first
    | exact Except.noConfusion h
    | (rw [← Except.ok.inj h]
       unfold Inv
       rw [checkWinner_ph, checkWinner_pd, updatePlayer_ph]
       show s.pendingAction.isSome = true ↔ _
       exact hs)

theorem Inv_finishPlay (pid : Nat) (s1 : GameState) (hs : Inv s1) :
    Inv (finishPlay pid s1) := by
  unfold finishPlay
  dsimp only
  split
  · rename _ ∧ _ => hcond
    split
    · simp [Inv, hcond.2]
    · simp [Inv, hcond.2]
  · unfold Inv
    rw [checkWinner_ph, checkWinner_pd]
    show s1.pendingAction.isSome = true ↔ _
    exact hs

theorem Inv_playCardBranch (sh : List Card → List Card) (s0 : GameState)
    (pid : Nat) (card : Card) (t : Option PlayCardTarget) (s1 : GameState)
    (hph : s0.turnPhase ≠ .responding) (hpd : s0.pendingAction = none)
    (h : playCardBranch sh s0 pid card t = .ok s1) : Inv s1 := by
  unfold playCardBranch playActionCard playRentCard playPropertyCardSt at h
  dsimp only at h
  repeat' split at h
  all_goals first
    | exact Except.noConfusion h
    | (rw [← Except.ok.inj h]; simp [Inv, updatePlayer, hpd, hph])

theorem Inv_playCard (sh : List Card → List Card) (s : GameState)
    (pid cid : Nat) (t : Option PlayCardTarget) (s' : GameState)
    (hs : Inv s) (h : playCard sh s pid cid t = .ok s') : Inv s' := by
  unfold playCard at h
  dsimp only at h
  repeat' split at h
  all_goals first
    | exact Except.noConfusion h
    | (rename ¬ s.turnPhase ≠ TurnPhase.action => hnact
       rename playCardBranch _ _ _ _ _ = _ => hB
       have hact : s.turnPhase = .action := not_not.mp hnact
       have hpd : s.pendingAction = none :=
         Inv_pending_none hs (by rw [hact]; simp)
       rw [← Except.ok.inj h]
       refine Inv_finishPlay pid _ ?_
       exact Inv_playCardBranch sh _ pid _ t _
         (by rw [updatePlayer_ph, hact]; simp)
         (by show s.pendingAction = none; exact hpd) hB)

theorem Inv_respondToAction (s : GameState) (pid : Nat)
    (resp : ActionResponse) (s' : GameState) (hs : Inv s)
    (h : respondToAction s pid resp = .ok s') : Inv s' := by
  unfold respondToAction at h
  dsimp only at h
  repeat' split at h
  all_goals first
    | exact Except.noConfusion h
    | (rw [← Except.ok.inj h]; exact Inv_clearAndAdvance _)
    | (rename s.pendingAction = some _ => hpa
       rename runPendingEffect _ _ _ _ _ = _ => hq2
       rename settlePayment _ _ _ _ _ = _ => hq1
       have hr : s.turnPhase = .responding := hs.mp (by rw [hpa]; rfl)
       have h1 := congrArg phOf hq1
       rw [settlePayment_ph] at h1
       have h2 := congrArg phOf hq2
       rw [runPendingEffect_ph] at h2
       rw [← Except.ok.inj h]
       exact ⟨fun _ => ((h1.trans h2).symm.trans hr), fun _ => rfl⟩)
    | (rename s.pendingAction = some _ => hpa
       have hr : s.turnPhase = .responding := hs.mp (by rw [hpa]; rfl)
       rw [← Except.ok.inj h]
       exact ⟨fun _ => hr, fun _ => rfl⟩)

/-- One successful application of an exported mutating operation (decks
fed to `startGame` are shuffles of `createDeck`; drawing/shuffle oracles
are permutations, as `shuffleDeck` produces). -/
inductive Step : GameState → GameState → Prop where
  | add (s : GameState) (pid : Nat) (name : String) :
      Step s (addPlayer s pid name)
  | remove (s : GameState) (pid : Nat) :
      Step s (removePlayer s pid)
  | start (s : GameState) (d : List Card) (s' : GameState)
      (hd : d.Perm createDeck) (h : startGame s d = .ok s') : Step s s'
  | draw (s : GameState) (sh : List Card → List Card) (pid : Nat)
      (s' : GameState) (hsh : ∀ l, (sh l).Perm l)
      (h : drawCards sh s pid = .ok s') : Step s s'
  | play (s : GameState) (sh : List Card → List Card) (pid cid : Nat)
      (t : Option PlayCardTarget) (s' : GameState)
      (hsh : ∀ l, (sh l).Perm l)
      (h : playCard sh s pid cid t = .ok s') : Step s s'
  | respond (s : GameState) (pid : Nat) (resp : ActionResponse)
      (s' : GameState) (h : respondToAction s pid resp = .ok s') : Step s s'
  | discard (s : GameState) (pid : Nat) (ids : List Nat)
      (s' : GameState) (h : discardCards s pid ids = .ok s') : Step s s'
  | endEarly (s : GameState) (pid : Nat) (s' : GameState)
      (h : endTurnEarly s pid = .ok s') : Step s s'
  | rearrange (s : GameState) (pid cid : Nat)
      (c1 c2 : PropertyColor) (s' : GameState)
      (h : rearrangeProperty s pid cid c1 c2 = .ok s') : Step s s'

/-- `Step` with `startGame` restricted to states with no pending action
(the restriction the amended invariant needs). -/
inductive StepSafe : GameState → GameState → Prop where
  | add (s : GameState) (pid : Nat) (name : String) :
      StepSafe s (addPlayer s pid name)
  | remove (s : GameState) (pid : Nat) :
      StepSafe s (removePlayer s pid)
  | start (s : GameState) (d : List Card) (s' : GameState)
      (hd : d.Perm createDeck) (hpd : s.pendingAction = none)
      (h : startGame s d = .ok s') : StepSafe s s'
  | draw (s : GameState) (sh : List Card → List Card) (pid : Nat)
      (s' : GameState) (hsh : ∀ l, (sh l).Perm l)
      (h : drawCards sh s pid = .ok s') : StepSafe s s'
  | play (s : GameState) (sh : List Card → List Card) (pid cid : Nat)
      (t : Option PlayCardTarget) (s' : GameState)
      (hsh : ∀ l, (sh l).Perm l)
      (h : playCard sh s pid cid t = .ok s') : StepSafe s s'
  | respond (s : GameState) (pid : Nat) (resp : ActionResponse)
      (s' : GameState) (h : respondToAction s pid resp = .ok s') :
      StepSafe s s'
  | discard (s : GameState) (pid : Nat) (ids : List Nat)
      (s' : GameState) (h : discardCards s pid ids = .ok s') : StepSafe s s'
  | endEarly (s : GameState) (pid : Nat) (s' : GameState)
      (h : endTurnEarly s pid = .ok s') : StepSafe s s'
  | rearrange (s : GameState) (pid cid : Nat)
      (c1 c2 : PropertyColor) (s' : GameState)
      (h : rearrangeProperty s pid cid c1 c2 = .ok s') : StepSafe s s'

/-- Reachable from a fresh game on some shuffle of the full deck. -/
def Reachable (s : GameState) : Prop :=
  ∃ d, d.Perm createDeck ∧
    Relation.ReflTransGen Step (createGameState d) s

/-- Reachability when `startGame` is never invoked mid-response. -/
def ReachableSafe (s : GameState) : Prop :=
  ∃ d, d.Perm createDeck ∧
    Relation.ReflTransGen StepSafe (createGameState d) s

def idShuffle : List Card → List Card := fun l => l

def t0C3 : GameState := createGameState createDeck
def t1C3 : GameState := addPlayer t0C3 1 "a"
def t2C3 : GameState := addPlayer t1C3 2 "b"
def t3C3 : GameState := outState (startGame t2C3 (createDeck.rotate 75))
def t4C3 : GameState := outState (drawCards idShuffle t3C3 1)
def t5C3 : GameState := outState (playCard idShuffle t4C3 1 75 none)
def t6C3 : GameState := outState (startGame t5C3 createDeck)

theorem t3C3_ok : startGame t2C3 (createDeck.rotate 75) = .ok t3C3 := rfl

theorem t4C3_ok : drawCards idShuffle t3C3 1 = .ok t4C3 := rfl

theorem t5C3_ok : playCard idShuffle t4C3 1 75 none = .ok t5C3 := rfl

theorem t6C3_ok : startGame t5C3 createDeck = .ok t6C3 := rfl

theorem c3Chain :
    Relation.ReflTransGen Step (createGameState createDeck) t6C3 :=
  (((((Relation.ReflTransGen.refl.tail
    (Step.add t0C3 1 "a")).tail
    (Step.add t1C3 2 "b")).tail
    (Step.start t2C3 (createDeck.rotate 75) t3C3
      (List.rotate_perm createDeck 75) t3C3_ok)).tail
    (Step.draw t3C3 idShuffle 1 t4C3 (fun l => List.Perm.refl l)
      t4C3_ok)).tail
    (Step.play t4C3 idShuffle 1 75 none t5C3 (fun l => List.Perm.refl l)
      t5C3_ok)).tail
    (Step.start t5C3 createDeck t6C3 (List.Perm.refl createDeck) t6C3_ok)

/-- C3 counterexample: after two players join, the match starts, player 1
draws and plays a Birthday card (creating a pending action in the
responding phase), calling `startGame` again — which has no phase guard —
yields a reachable state whose pending action survives while the turn
phase is reset to `draw`. -/
theorem claim_C3_counterexample :
    ∃ s, Reachable s ∧ s.pendingAction.isSome = true ∧
      s.turnPhase ≠ .responding :=
  ⟨t6C3, ⟨createDeck, List.Perm.refl createDeck, c3Chain⟩, rfl, by decide⟩

/-- C3 (corrected): the pending-action/responding-phase invariant holds in
every state reachable through the exported operations provided `startGame`
is only invoked on states with no pending action; the unguarded restart is
the sole violation (see the counterexample). -/
theorem claim_C3_amended :
    ∀ s : GameState, ReachableSafe s →
      (s.pendingAction.isSome = true ↔ s.turnPhase = .responding) := by
  intro s hreach
  obtain ⟨d, _, hchain⟩ := hreach
  induction hchain with
  | refl => exact Inv_createGameState d
  | tail _ hstep ih =>
    cases hstep with
    | add pid name => exact Inv_addPlayer _ pid name ih
    | remove pid => exact Inv_removePlayer _ pid ih
    | start dd s2 _ hpd h => exact Inv_startGame _ dd _ hpd h
    | draw sh pid s2 _ h => exact Inv_drawCards sh _ pid _ ih h
    | play sh pid cid t s2 _ h =>
        exact Inv_playCard sh _ pid cid t _ ih h
    | respond pid resp s2 h =>
        exact Inv_respondToAction _ pid resp _ ih h
    | discard pid ids s2 h => exact Inv_discardCards _ pid ids _ h
    | endEarly pid s2 h => exact Inv_endTurnEarly _ pid _ h
    | rearrange pid cid c1 c2 s2 h =>
        exact Inv_rearrangeProperty _ pid cid c1 c2 _ ih h

theorem c3ChainSafe :
    Relation.ReflTransGen StepSafe (createGameState createDeck) t5C3 :=
  ((((Relation.ReflTransGen.refl.tail
    (StepSafe.add t0C3 1 "a")).tail
    (StepSafe.add t1C3 2 "b")).tail
    (StepSafe.start t2C3 (createDeck.rotate 75) t3C3
      (List.rotate_perm createDeck 75) rfl t3C3_ok)).tail
    (StepSafe.draw t3C3 idShuffle 1 t4C3 (fun l => List.Perm.refl l)
      t4C3_ok)).tail
    (StepSafe.play t4C3 idShuffle 1 75 none t5C3 (fun l => List.Perm.refl l)
      t5C3_ok)

/-- C3 witness: the invariant, instantiated at the safely-reached state in
which player 1 has just played a Birthday card. -/
theorem claim_C3_witness :
    t5C3.pendingAction.isSome = true ↔ t5C3.turnPhase = .responding :=
  claim_C3_amended t5C3
    ⟨createDeck, List.Perm.refl createDeck, c3ChainSafe⟩

def c5wPlayer : Player :=
  { id := 1, name := "a",
    hand := [createPropertyCard 5 .brown 1],
    properties :=
      [{ color := .darkBlue,
         cards := [createPropertyCard 1 .darkBlue 4,
                   createPropertyCard 2 .darkBlue 4],
         hasHouse := false, hasHotel := false, isComplete := true },
       { color := .utility,
         cards := [createPropertyCard 3 .utility 2,
                   createPropertyCard 4 .utility 2],
         hasHouse := false, hasHotel := false, isComplete := true },
       { color := .brown,
         cards := [createPropertyCard 6 .brown 1],
         hasHouse := false, hasHotel := false, isComplete := false }],
    bank := [] }

def c5wState : GameState :=
  { players := [c5wPlayer], currentPlayerIndex := 0, deck := [],
    discardPile := [], phase := .playing, turnPhase := .action,
    actionsRemaining := 3, pendingAction := none, winner := none }

def c5wAfter : GameState := outState (playCard idShuffle c5wState 1 5 none)

/-- C5 witness: playing the second brown property completes a third set
and `playCard` immediately finishes the match with a winner. -/
theorem claim_C5_witness :
    c5wAfter.phase = .finished ∧ c5wAfter.winner.isSome = true :=
  claim_C5_amended.1 idShuffle c5wState 1 5 none c5wAfter rfl (by decide)

end MDeal
